import Mathlib

/-!
Shallow embedding of the financial-tracker defensive parsing pipeline.

Sources embedded (from the repository's Python code):
* `defensive_transaction_parser.py` — `DefensiveTransactionParser` with its five
  row strategies, `parse_date`, `parse_amount_with_currency`, the `looks_like_*`
  classifiers and the strategy ladder `parse_transaction_row`.
* `transaction_processor.py` — `detect_currency_from_amount`, `_parse_amount`
  and `_validate_transactions`.
* `data_sanitizer.py` — `DataSanitizer.sanitize_csv_data` and its five steps.
* `robust_csv_processor.py` — `validate_csv_structure`.

Modelling conventions: Python `float` values are modelled as `ℚ` (every literal
and every decimal string appearing in the claims is exactly representable, and
the comparisons the code performs agree with binary floats on them); Python
strings are `String` manipulated through their character lists; `None`/`NaN`
cells are explicit constructors; fallible code returns `Option`/`Except`.
-/

namespace FinTrack

/-- Characters of a string. -/
def chars (s : String) : List Char := s.data

/-- Rebuild a string from its characters. -/
def str (l : List Char) : String := String.mk l

/-- Python `str.strip()` whitespace class (the six ASCII whitespace characters;
the claims never exercise the wider Unicode class). -/
def isPySpace (c : Char) : Bool :=
  c = ' ' || c = '\t' || c = '\n' || c = '\r' || c = '\x0b' || c = '\x0c'

/-- Strip leading and trailing whitespace from a character list. -/
def stripChars (l : List Char) : List Char :=
  ((l.dropWhile isPySpace).reverse.dropWhile isPySpace).reverse

/-- Python `str.strip()`. -/
def pyStrip (s : String) : String := str (stripChars (chars s))

/-- Python `str.lower()` (ASCII case mapping; the inputs in scope are ASCII
apart from currency glyphs, which have no case). -/
def lowerStr (s : String) : String := str ((chars s).map Char.toLower)

/-- Whether `p` occurs as a contiguous substring of `l` (Python `p in s`). -/
def containsSub (p : List Char) : List Char → Bool
  | [] => p.isEmpty
  | c :: rest => p.isPrefixOf (c :: rest) || containsSub p rest

/-- Numeric value of a digit string. -/
def digitsVal (l : List Char) : Nat :=
  l.foldl (fun a c => a * 10 + (c.toNat - '0'.toNat)) 0

/-- Core of Python `float(s)` on an unsigned token: `digits`, `digits.digits`,
`digits.` or `.digits` (at least one digit overall), returned as the scaled
decimal `(mantissa, places)` denoting `mantissa / 10 ^ places`.  The inputs
reaching `float` in this pipeline consist of digits, dots and signs only, so
the exponent/`inf`/`nan` forms of the full grammar are never exercised. -/
def pyFloatCore (l : List Char) : Option (Nat × Nat) :=
  let ip := l.takeWhile Char.isDigit
  let rest := l.drop ip.length
  if rest = [] then
    if ip = [] then none else some (digitsVal ip, 0)
  else if rest.headD ' ' = '.' then
    let fp := rest.tail
    if fp.all Char.isDigit ∧ (ip ≠ [] ∨ fp ≠ []) then
      some (digitsVal ip * 10 ^ fp.length + digitsVal fp, fp.length)
    else none
  else none

/-- Python `float(s)` with an optional leading sign: `(negative, mantissa,
places)` denoting `± mantissa / 10 ^ places`. -/
def pyFloat? : List Char → Option (Bool × Nat × Nat)
  | '+' :: t => (pyFloatCore t).map (fun p => (false, p))
  | '-' :: t => (pyFloatCore t).map (fun p => (true, p))
  | t => (pyFloatCore t).map (fun p => (false, p))

/-- The rational value of a signed scaled decimal. -/
def ratOf (neg : Bool) (m k : Nat) : ℚ :=
  (if neg then -(m : ℚ) else (m : ℚ)) / 10 ^ k

/-- Whether the signed scaled decimal is strictly negative. -/
def negOf (neg : Bool) (m : Nat) : Bool := neg && !(m == 0)

/-- Python `float(str(s))` including the surrounding-whitespace tolerance of
`float`. -/
def pyFloatStr (s : String) : Option (Bool × Nat × Nat) :=
  pyFloat? (chars (pyStrip s))

/-- Index of the last occurrence of `c` in `l` (Python `str.rfind`), when any. -/
def rfindIdx (c : Char) (l : List Char) : Option Nat :=
  match l.reverse.findIdx? (· = c) with
  | some j => some (l.length - 1 - j)
  | none => none

/-- Keep only digits, separators and sign markers
(`re.sub(r'[^\d\.,\-\+]', '', s)` in both amount parsers). -/
def cleanAmountChars (s : String) : List Char :=
  (chars s).filter (fun c => c.isDigit || c = '.' || c = ',' || c = '-' || c = '+')

/-- Python-cell values as they occur in rows handed to the row parsers and the
validator.  `vNone` models Python `None`/pandas missing values. -/
inductive PyVal
  | vStr (s : String)
  | vInt (n : Int)
  | vFloat (q : ℚ)
  | vNone
deriving DecidableEq

/-- Python truthiness of the modelled values. -/
def truthy : PyVal → Bool
  | .vStr s => !s.isEmpty
  | .vInt n => !(n == 0)
  | .vFloat q => !(q == 0)
  | .vNone => false

/-- Python `repr`/`str` of a float.  Exact for integral values — the only
float-valued cells the theorems below exercise; for non-integral rationals the
shortest-round-trip decimal of the underlying binary float is not reproduced
and a fraction rendering stands in. -/
def floatRepr (q : ℚ) : String :=
  if q.den = 1 then toString q.num ++ ".0"
  else toString q.num ++ "/" ++ toString q.den

/-- Python `str(v)`. -/
def pyStr : PyVal → String
  | .vStr s => s
  | .vInt n => toString n
  | .vFloat q => floatRepr q
  | .vNone => "None"

/-- pandas `pd.notna`. -/
def notna : PyVal → Bool
  | .vNone => false
  | _ => true

/-- A parsed CSV row as an ordered field-name→value mapping (a Python dict). -/
abbrev Row := List (String × PyVal)

/-- Dict assignment: overwrite in place, or append a new key. -/
def upsert (l : List (String × PyVal)) (k : String) (v : PyVal) :
    List (String × PyVal) :=
  if l.any (fun p => p.1 = k) then
    l.map (fun p => if p.1 = k then (k, v) else p)
  else l ++ [(k, v)]

/-- Dict lookup with default (`dict.get(k, d)`). -/
def getVal (l : List (String × PyVal)) (k : String) (dflt : PyVal) : PyVal :=
  match l.find? (fun p => p.1 = k) with
  | some p => p.2
  | none => dflt

/-- Whether a key is present (`k in dict`). -/
def hasKey (l : List (String × PyVal)) (k : String) : Bool :=
  l.any (fun p => p.1 = k)

/-- Index-annotated copy of a list, indices starting at `n`. -/
def enumF : Nat → List α → List (Nat × α)
  | _, [] => []
  | n, x :: xs => (n, x) :: enumF (n + 1) xs

/-- Join strings with a single separator (`sep.join(xs)`). -/
def joinWith (sep : String) : List String → String
  | [] => ""
  | [x] => x
  | x :: y :: xs => x ++ sep ++ joinWith sep (y :: xs)

end FinTrack

namespace FinTrack.DefensiveParser

open FinTrack

/-- `DefensiveTransactionParser.currency_symbols`, in the source's insertion
order: every single-character symbol precedes every multi-character prefix. -/
def currency_symbols : List (String × String) :=
  [("€", "EUR"), ("$", "USD"), ("₹", "INR"), ("£", "GBP"), ("¥", "JPY"),
   ("₽", "RUB"), ("₱", "PHP"), ("₩", "KRW"), ("฿", "THB"), ("₿", "BTC"),
   ("C$", "CAD"), ("A$", "AUD"), ("R$", "BRL"), ("RM", "MYR"), ("S$", "SGD"),
   ("HK$", "HKD"), ("NZ$", "NZD"), ("Rp", "IDR")]

/-- Currency detection of `parse_amount_with_currency`: first dict entry whose
symbol occurs as a substring wins, default `"USD"`. -/
def detectCurrency (s : String) : String :=
  match currency_symbols.find? (fun p => containsSub (chars p.1) (chars s)) with
  | some p => p.2
  | none => "USD"

/-- Separator resolution of `parse_amount_with_currency`: with both separators
present the later one is the decimal separator; with only commas, the comma is
decimal when at most two characters follow the last one. -/
def resolveSeparators (l : List Char) : List Char :=
  if l.contains ',' && l.contains '.' then
    match rfindIdx ',' l, rfindIdx '.' l with
    | some lc, some ld =>
      if ld < lc then
        (l.filter (fun c => !(c == '.'))).map (fun c => if c = ',' then '.' else c)
      else l.filter (fun c => !(c == ','))
    | _, _ => l
  else if l.contains ',' then
    match rfindIdx ',' l with
    | some i =>
      if (l.drop (i + 1)).length ≤ 2 then l.map (fun c => if c = ',' then '.' else c)
      else l.filter (fun c => !(c == ','))
    | none => l
  else l

/-- `DefensiveTransactionParser.parse_amount_with_currency`.  `none` models the
`'success': False` dictionary; `some (a, c)` carries amount and currency. -/
def parse_amount_with_currency (s0 : String) : Option (ℚ × String) :=
  if s0 = "" || lowerStr s0 = "nan" then none
  else
    let s := pyStrip s0
    let currency := detectCurrency s
    let cleaned := cleanAmountChars s
    if cleaned.isEmpty then none
    else
      match pyFloat? (resolveSeparators cleaned) with
      | some (n, m, k) => some (ratOf n m k, currency)
      | none => none

end FinTrack.DefensiveParser

namespace FinTrack.TP

open FinTrack

/-- One entry of `TransactionProcessor.detect_currency_from_amount`'s pattern
table: a plain substring pattern (`re.search(r'C\$', s)` and the single
glyphs), an anchored prefix (`r'^\$'`), or a whole word (`r'\bUSD\b'`). -/
inductive CurPat
  | sub (p : String)
  | pre (p : String)
  | word (w : String)
deriving DecidableEq

/-- Word-constituent characters of `re`'s `\b` (letters, digits, underscore;
the codes tested are ASCII). -/
def isWordChar (c : Char) : Bool := c.isAlphanum || c = '_'

/-- `w` occurs as a prefix of `rest` with a word boundary after it. -/
def wordBoundaryOk (w rest : List Char) : Bool :=
  w.isPrefixOf rest &&
    (match rest.drop w.length with
     | [] => true
     | c :: _ => !isWordChar c)

/-- Scan for a `\b w \b` occurrence; `prev` is the character before the
current position. -/
def containsWordAux (w : List Char) : Option Char → List Char → Bool
  | prev, [] =>
    (prev.all fun p => !isWordChar p) && wordBoundaryOk w []
  | prev, c :: rest =>
    ((prev.all fun p => !isWordChar p) && wordBoundaryOk w (c :: rest))
      || containsWordAux w (some c) rest

/-- `re.search(r'\b' + w + r'\b', s)`. -/
def containsWord (w s : String) : Bool := containsWordAux (chars w) none (chars s)

/-- Match one pattern against the token. -/
def matchPat (s : String) : CurPat → Bool
  | .sub p => containsSub (chars p) (chars s)
  | .pre p => (chars p).isPrefixOf (chars s)
  | .word w => containsWord w s

/-- The unambiguous multi-character prefixes, first in the source's list. -/
def multiPats : List (CurPat × String) :=
  [(.sub "C$", "CAD"), (.sub "A$", "AUD"), (.sub "R$", "BRL"), (.sub "RM", "MYR"),
   (.sub "S$", "SGD"), (.sub "HK$", "HKD"), (.sub "NZ$", "NZD"), (.sub "Rp", "IDR")]

/-- The remaining patterns, in the source's order.  The single-character
symbols are the literal (mojibake) byte sequences present in the source file. -/
def restPats : List (CurPat × String) :=
  [(.sub "â‚¹", "INR"), (.sub "â‚¬", "EUR"), (.sub "Â£", "GBP"), (.sub "â‚±", "PHP"),
   (.sub "â‚½", "RUB"), (.sub "â‚©", "KRW"), (.sub "à¸¿", "THB"), (.sub "â‚¿", "BTC"),
   (.pre "$", "USD"),
   (.sub "Â¥", "JPY"), (.sub "ï¿¥", "CNY"),
   (.word "USD", "USD"), (.word "INR", "INR"), (.word "EUR", "EUR"),
   (.word "GBP", "GBP"), (.word "JPY", "JPY"), (.word "CAD", "CAD"),
   (.word "AUD", "AUD"), (.word "CHF", "CHF"), (.word "CNY", "CNY"),
   (.word "SEK", "SEK"), (.word "NOK", "NOK"), (.word "DKK", "DKK"),
   (.word "PLN", "PLN"), (.word "CZK", "CZK"), (.word "HUF", "HUF"),
   (.word "RUB", "RUB"), (.word "BRL", "BRL"), (.word "MXN", "MXN"),
   (.word "ZAR", "ZAR"), (.word "KRW", "KRW"), (.word "SGD", "SGD"),
   (.word "HKD", "HKD"), (.word "NZD", "NZD"), (.word "THB", "THB"),
   (.word "MYR", "MYR"), (.word "IDR", "IDR"), (.word "PHP", "PHP")]

/-- `currency_patterns` of `detect_currency_from_amount`, multi-character
prefixes strictly before everything else. -/
def currency_patterns : List (CurPat × String) := multiPats ++ restPats

/-- First matching pattern wins; fall back to `"USD"`. -/
def findPat : List (CurPat × String) → String → String
  | [], _ => "USD"
  | (p, c) :: rest, s => if matchPat s p then c else findPat rest s

/-- `TransactionProcessor.detect_currency_from_amount`. -/
def detect_currency_from_amount (s : String) : String :=
  if s = "" then "USD" else findPat currency_patterns (pyStrip s)

/-- Separator resolution of `_parse_amount`.  It differs from the defensive
parser's in the comma-only case: the comma is decimal only when one or two
characters follow the last comma (zero characters fall to the thousands
branch). -/
def resolveSeparatorsTP (l : List Char) : List Char :=
  if l.contains ',' && l.contains '.' then
    match rfindIdx ',' l, rfindIdx '.' l with
    | some lc, some ld =>
      if ld < lc then
        (l.filter (fun c => !(c == '.'))).map (fun c => if c = ',' then '.' else c)
      else l.filter (fun c => !(c == ','))
    | _, _ => l
  else if l.contains ',' then
    match rfindIdx ',' l with
    | some i =>
      let after := l.drop (i + 1)
      if after.length ≤ 2 && 0 < after.length then
        l.map (fun c => if c = ',' then '.' else c)
      else l.filter (fun c => !(c == ','))
    | none => l
  else l

/-- `TransactionProcessor._parse_amount`: `(parsed amount?, currency)`.  The
`except` fall-through of the source returns `(None, 'USD')`, as does the
empty-after-sign-stripping path; the explicit early failures return the
detected currency, exactly as in the source. -/
def parse_amount (s0 : String) : Option ℚ × String :=
  if s0 = "" || lowerStr s0 = "nan" then (none, "USD")
  else
    let s := pyStrip s0
    let currency := detect_currency_from_amount s
    let cleaned := cleanAmountChars s
    if cleaned.isEmpty then (none, currency)
    else
      let resolved := resolveSeparatorsTP cleaned
      let isNeg := resolved.headD ' ' = '-'
      let stripped := resolved.filter (fun c => !(c == '-') && !(c == '+'))
      if stripped.isEmpty then (none, "USD")
      else
        match pyFloat? stripped with
        | none => (none, "USD")
        | some (_, m, k) =>
          -- `abs(amount) > 1000000000` and `abs(amount) < 0.000001 and amount != 0`
          -- for `amount = ± m / 10 ^ k`, written as the equivalent exact integer
          -- comparisons `m > 10^9 · 10^k` and `m · 10^6 < 10^k ∧ m ≠ 0`.
          if 1000000000 * 10 ^ k < m || (m * 1000000 < 10 ^ k && !(m == 0)) then
            (none, currency)
          else (some (ratOf isNeg m k), currency)

end FinTrack.TP

namespace FinTrack.DefensiveParser

open FinTrack

/-- A parsed calendar date (`datetime` restricted to the fields the pipeline
uses). -/
structure PDate where
  y : Nat
  m : Nat
  d : Nat
deriving DecidableEq

/-- Zero-pad to two digits. -/
def pad2 (n : Nat) : String := if n < 10 then "0" ++ toString n else toString n

/-- Zero-pad to four digits. -/
def pad4 (n : Nat) : String :=
  if n < 10 then "000" ++ toString n
  else if n < 100 then "00" ++ toString n
  else if n < 1000 then "0" ++ toString n
  else toString n

/-- `date.strftime('%Y-%m-%d')` (years in the pipeline are four-digit). -/
def isoDate (dt : PDate) : String := pad4 dt.y ++ "-" ++ pad2 dt.m ++ "-" ++ pad2 dt.d

/-- Tokens of a `strptime` format string. -/
inductive DTok
  | yr
  | mo
  | dy
  | hr
  | mi
  | sec
  | lit (c : Char)

/-- Grab a run of digits of length between 1 and `maxLen` (a numeric
`strptime` field; a longer run fails the format, as it does under the
regex `strptime` compiles). -/
def grabNum (maxLen : Nat) (l : List Char) : Option (Nat × List Char) :=
  let run := l.takeWhile Char.isDigit
  if run.isEmpty then none
  else if maxLen < run.length then none
  else some (digitsVal run, l.drop run.length)

/-- Run a format against the characters; fields are range-checked as
`strptime` checks them (day validity is the coarse 1–31 bound: the
day-per-month calendar refinement of `strptime` is not needed by any claim). -/
def runFmt : List DTok → List Char → Nat → Nat → Nat → Option PDate
  | [], l, y, m, d => if l.isEmpty then some ⟨y, m, d⟩ else none
  | t :: ts, l, y, m, d =>
    match t with
    | .lit c =>
      match l with
      | x :: rest => if x = c then runFmt ts rest y m d else none
      | [] => none
    | .yr =>
      match grabNum 4 l with
      | some (v, rest) => if 1 ≤ v ∧ v ≤ 9999 then runFmt ts rest v m d else none
      | none => none
    | .mo =>
      match grabNum 2 l with
      | some (v, rest) => if 1 ≤ v ∧ v ≤ 12 then runFmt ts rest y v d else none
      | none => none
    | .dy =>
      match grabNum 2 l with
      | some (v, rest) => if 1 ≤ v ∧ v ≤ 31 then runFmt ts rest y m v else none
      | none => none
    | .hr =>
      match grabNum 2 l with
      | some (v, rest) => if v ≤ 23 then runFmt ts rest y m d else none
      | none => none
    | .mi =>
      match grabNum 2 l with
      | some (v, rest) => if v ≤ 59 then runFmt ts rest y m d else none
      | none => none
    | .sec =>
      match grabNum 2 l with
      | some (v, rest) => if v ≤ 61 then runFmt ts rest y m d else none
      | none => none

/-- `DefensiveTransactionParser.date_formats`, in order. -/
def date_formats : List (List DTok) :=
  [[.yr, .lit '-', .mo, .lit '-', .dy],
   [.mo, .lit '/', .dy, .lit '/', .yr],
   [.dy, .lit '/', .mo, .lit '/', .yr],
   [.yr, .lit '/', .mo, .lit '/', .dy],
   [.dy, .lit '-', .mo, .lit '-', .yr],
   [.mo, .lit '-', .dy, .lit '-', .yr],
   [.yr, .lit '-', .mo, .lit '-', .dy, .lit ' ', .hr, .lit ':', .mi, .lit ':', .sec],
   [.mo, .lit '/', .dy, .lit '/', .yr, .lit ' ', .hr, .lit ':', .mi, .lit ':', .sec],
   [.dy, .lit '/', .mo, .lit '/', .yr, .lit ' ', .hr, .lit ':', .mi, .lit ':', .sec]]

/-- First format that parses wins. -/
def tryFmts : List (List DTok) → List Char → Option PDate
  | [], _ => none
  | f :: fs, l =>
    match runFmt f l 1900 1 1 with
    | some dt => some dt
    | none => tryFmts fs l

/-- `DefensiveTransactionParser.parse_date`. -/
def parse_date (v : PyVal) : Option PDate :=
  if !truthy v || lowerStr (pyStr v) = "nan" then none
  else tryFmts date_formats (chars (pyStrip (pyStr v)))

/-- Prefix match of `\d{4}-\d{2}-\d{2}` (the `re.match` of `looks_like_date`). -/
def matchDigits (n : Nat) (l : List Char) : Option (List Char) :=
  let t := l.take n
  if t.length = n && t.all Char.isDigit then some (l.drop n) else none

/-- `re.match(r'\d{4}-\d{2}-\d{2}', v)`. -/
def matchDatePrefix1 (l : List Char) : Bool :=
  match matchDigits 4 l with
  | some ('-' :: r) =>
    match matchDigits 2 r with
    | some ('-' :: r2) => (matchDigits 2 r2).isSome
    | _ => false
  | _ => false

/-- `re.match(r'\d{2}/\d{2}/\d{4}', v)`. -/
def matchDatePrefix2 (l : List Char) : Bool :=
  match matchDigits 2 l with
  | some ('/' :: r) =>
    match matchDigits 2 r with
    | some ('/' :: r2) => (matchDigits 4 r2).isSome
    | _ => false
  | _ => false

/-- `re.match(r'\d{2}-\d{2}-\d{4}', v)`. -/
def matchDatePrefix3 (l : List Char) : Bool :=
  match matchDigits 2 l with
  | some ('-' :: r) =>
    match matchDigits 2 r with
    | some ('-' :: r2) => (matchDigits 4 r2).isSome
    | _ => false
  | _ => false

/-- `DefensiveTransactionParser.looks_like_date`. -/
def looks_like_date (v : String) : Bool :=
  matchDatePrefix1 (chars v) || matchDatePrefix2 (chars v) || matchDatePrefix3 (chars v)

/-- The currency character class `[€$₹£¥₽₱₩]` of the defensive parser's row
patterns. -/
def currencyLeadChars : List Char := ['€', '$', '₹', '£', '¥', '₽', '₱', '₩']

/-- Prefix match of `\d+ sep \d{2}` (patterns 2 and 3 of `looks_like_amount`). -/
def matchNumSep2 (sep : Char) (l : List Char) : Bool :=
  let run := l.takeWhile Char.isDigit
  if run.isEmpty then false
  else
    match l.drop run.length with
    | c :: r => c = sep && (r.take 2).length = 2 && (r.take 2).all Char.isDigit
    | [] => false

/-- `DefensiveTransactionParser.looks_like_amount` (four prefix patterns in
order; the bare `\d+` pattern makes any digit-leading token amount-like). -/
def looks_like_amount (v : String) : Bool :=
  let l := chars v
  (match l with
   | c :: d :: _ => currencyLeadChars.contains c && d.isDigit
   | _ => false)
  || matchNumSep2 '.' l || matchNumSep2 ',' l
  || !(l.takeWhile Char.isDigit).isEmpty

/-- ASCII letter test (`[a-zA-Z]`). -/
def isAsciiLetter (c : Char) : Bool :=
  ('a' ≤ c && c ≤ 'z') || ('A' ≤ c && c ≤ 'Z')

/-- `DefensiveTransactionParser.looks_like_description`. -/
def looks_like_description (v : String) : Bool :=
  let l := chars v
  decide (3 < l.length) && l.any isAsciiLetter && !(!l.isEmpty && l.all Char.isDigit)

end FinTrack.DefensiveParser

namespace FinTrack.DefensiveParser

open FinTrack

/-- The transaction dictionary each successful strategy builds: all seven keys
of the source's dict literal. -/
structure Txn where
  date : String
  description : String
  amount : ℚ
  currency : String
  type : String
  category : String
  confidence_score : ℚ
deriving DecidableEq

/-- `ParsingResult` of `defensive_transaction_parser.py`. -/
structure ParsingResult where
  success : Bool
  transaction : Option Txn
  strategy_used : String
  confidence : ℚ
  error_message : Option String
deriving DecidableEq

/-- A failure result (the source's `ParsingResult(success=False, ...)`). -/
def failRes (name msg : String) : ParsingResult :=
  ⟨false, none, name, 0, some msg⟩

/-- The `'debit' if str(t).lower() in ['debit','expense','withdrawal'] else
'credit'` derivation of the standard strategy. -/
def typeFrom (v : PyVal) : String :=
  if ["debit", "expense", "withdrawal"].contains (lowerStr (pyStr v)) then "debit"
  else "credit"

/-- Key normalisation of the standard strategy
(`str(key).lower().strip()`, later duplicates overwriting earlier ones). -/
def normalizeRow (row : Row) : Row :=
  row.foldl (fun acc p => upsert acc (pyStrip (lowerStr p.1)) p.2) []

/-- `DefensiveTransactionParser.standard_parsing`.  Its body has no raise
point outside the calls modelled here, so the source's enclosing
`try/except` never converts anything. -/
def standard_parsing (row : Row) : ParsingResult :=
  let nd := normalizeRow row
  let dateV := getVal nd "date" (.vStr "")
  let descV := getVal nd "description" (.vStr "")
  let amountS := pyStr (getVal nd "amount" (.vStr ""))
  let typeV := getVal nd "type" (.vStr "Debit")
  let catV := getVal nd "category" (.vStr "Other")
  if !truthy dateV || !truthy descV || amountS = "" then
    failRes "standard_parsing" "Missing required fields"
  else
    match parse_date dateV with
    | none => failRes "standard_parsing" "Could not parse date"
    | some dt =>
      match parse_amount_with_currency amountS with
      | none => failRes "standard_parsing" "Could not parse amount"
      | some (a, cur) =>
        { success := true
          transaction := some
            { date := isoDate dt
              description := pyStrip (pyStr descV)
              amount := a
              currency := cur
              type := typeFrom typeV
              category := lowerStr (pyStrip (pyStr catV))
              confidence_score := 9 / 10 }
          strategy_used := "standard_parsing"
          confidence := 9 / 10
          error_message := none }

/-- Per-row field detection of `fuzzy_column_matching`: an `if/elif` chain per
cell, first hit per field wins. -/
structure Detected where
  date : Option String
  amount : Option String
  descr : Option String

/-- Fold the detection chain over the row's cells in order. -/
def detectFields (row : Row) : Detected :=
  row.foldl
    (fun acc p =>
      let vs := pyStrip (pyStr p.2)
      if looks_like_date vs && acc.date.isNone then { acc with date := some vs }
      else if looks_like_amount vs && acc.amount.isNone then { acc with amount := some vs }
      else if looks_like_description vs && acc.descr.isNone then { acc with descr := some vs }
      else acc)
    ⟨none, none, none⟩

/-- `DefensiveTransactionParser.fuzzy_column_matching`. -/
def fuzzy_column_matching (row : Row) : ParsingResult :=
  let det := detectFields row
  match det.date, det.amount, det.descr with
  | some ds, some amt, some desc =>
    match parse_date (.vStr ds) with
    | none => failRes "fuzzy_column_matching" "Could not parse detected date"
    | some dt =>
      match parse_amount_with_currency amt with
      | none => failRes "fuzzy_column_matching" "Could not parse detected amount"
      | some (a, cur) =>
        { success := true
          transaction := some
            { date := isoDate dt
              description := desc
              amount := a
              currency := cur
              type := if a < 0 then "debit" else "credit"
              category := "other"
              confidence_score := 7 / 10 }
          strategy_used := "fuzzy_column_matching"
          confidence := 7 / 10
          error_message := none }
  | _, _, _ => failRes "fuzzy_column_matching" "Could not identify required fields"

/-- `' '.join(str(val) for val in row.values if pd.notna(val))`. -/
def rowJoin (row : Row) : String :=
  joinWith " " ((row.filter (fun p => notna p.2)).map (fun p => pyStr p.2))

/-- Match at the current position one of the three alternatives of the date
pattern `\d{4}-\d{2}-\d{2}|\d{2}/\d{2}/\d{4}|\d{2}-\d{2}-\d{4}` (each is ten
characters long). -/
def dateMatchAt (l : List Char) : Option (List Char) :=
  if matchDatePrefix1 l || matchDatePrefix2 l || matchDatePrefix3 l then
    some (l.take 10)
  else none

/-- Match at the current position the amount pattern
`[€$₹£¥₽₱₩]?\d+[.,]\d{2}` with greedy `\d+` (equivalent here to the regex
engine's backtracking, since shortening `\d+` only exposes another digit where
a separator is required). -/
def amountCoreAt (l : List Char) : Option (List Char) :=
  let run := l.takeWhile Char.isDigit
  if run.isEmpty then none
  else
    match l.drop run.length with
    | c :: r =>
      if (c = '.' || c = ',') && (r.take 2).length = 2 && (r.take 2).all Char.isDigit then
        some (run ++ c :: r.take 2)
      else none
    | [] => none

/-- The amount pattern with its optional leading currency character. -/
def amountMatchAt : List Char → Option (List Char)
  | [] => none
  | c :: rest =>
    if currencyLeadChars.contains c then (amountCoreAt rest).map (c :: ·)
    else amountCoreAt (c :: rest)

/-- `re.search`: leftmost match of a positional matcher. -/
def searchFirst (matchAt : List Char → Option (List Char)) : List Char → Option (List Char)
  | [] => matchAt []
  | c :: rest =>
    match matchAt (c :: rest) with
    | some m => some m
    | none => searchFirst matchAt rest

/-- `re.sub(pattern, '', s)`: delete every non-overlapping leftmost match.
Fuel keeps the recursion structural; the matchers used never return an empty
match, so the fuel (one unit per character) is never exhausted. -/
def subAllAux (matchAt : List Char → Option (List Char)) : Nat → List Char → List Char
  | 0, l => l
  | _ + 1, [] => []
  | fuel + 1, c :: rest =>
    match matchAt (c :: rest) with
    | some m => subAllAux matchAt fuel ((c :: rest).drop m.length)
    | none => c :: subAllAux matchAt fuel rest

/-- Delete every match of a pattern from the characters. -/
def subAll (matchAt : List Char → Option (List Char)) (l : List Char) : List Char :=
  subAllAux matchAt l.length l

/-- `DefensiveTransactionParser.pattern_based_extraction`. -/
def pattern_based_extraction (row : Row) : ParsingResult :=
  let rs := chars (rowJoin row)
  match searchFirst dateMatchAt rs with
  | none => failRes "pattern_based_extraction" "No date pattern found"
  | some dm =>
    match parse_date (.vStr (str dm)) with
    | none => failRes "pattern_based_extraction" "Could not parse extracted date"
    | some dt =>
      match searchFirst amountMatchAt rs with
      | none => failRes "pattern_based_extraction" "No amount pattern found"
      | some am =>
        match parse_amount_with_currency (str am) with
        | none => failRes "pattern_based_extraction" "Could not parse extracted amount"
        | some (a, cur) =>
          let d2 := subAll amountMatchAt (subAll dateMatchAt rs)
          let desc0 := pyStrip (str d2)
          { success := true
            transaction := some
              { date := isoDate dt
                description := if desc0 = "" then "Unknown transaction" else desc0
                amount := a
                currency := cur
                type := if a < 0 then "debit" else "credit"
                category := "other"
                confidence_score := 6 / 10 }
            strategy_used := "pattern_based_extraction"
            confidence := 6 / 10
            error_message := none }

/-- Candidate lists of `manual_field_detection` (same `elif` chain, collecting
every candidate in row order). -/
def collectCands (row : Row) : List String × List String × List String :=
  row.foldl
    (fun acc p =>
      let vs := pyStrip (pyStr p.2)
      if looks_like_date vs then (acc.1 ++ [vs], acc.2.1, acc.2.2)
      else if looks_like_amount vs then (acc.1, acc.2.1 ++ [vs], acc.2.2)
      else if looks_like_description vs then (acc.1, acc.2.1, acc.2.2 ++ [vs])
      else acc)
    ([], [], [])

/-- `DefensiveTransactionParser.manual_field_detection`. -/
def manual_field_detection (row : Row) : ParsingResult :=
  let cands := collectCands row
  match cands.1, cands.2.1 with
  | dcand :: _, acand :: _ =>
    match parse_date (.vStr dcand), parse_amount_with_currency acand with
    | some dt, some (a, cur) =>
      { success := true
        transaction := some
          { date := isoDate dt
            description := cands.2.2.headD "Unknown transaction"
            amount := a
            currency := cur
            type := if a < 0 then "debit" else "credit"
            category := "other"
            confidence_score := 5 / 10 }
        strategy_used := "manual_field_detection"
        confidence := 5 / 10
        error_message := none }
    | _, _ => failRes "manual_field_detection" "Could not parse detected fields"
  | _, _ => failRes "manual_field_detection" "Could not find date or amount candidates"

/-- Match at the current position the emergency number pattern
`\d+[.,]?\d*` (greedy; the optional separator is consumed when present, with
whatever digits follow it). -/
def emNumAt (l : List Char) : Option (List Char) :=
  let run := l.takeWhile Char.isDigit
  if run.isEmpty then none
  else
    match l.drop run.length with
    | c :: r =>
      if c = '.' || c = ',' then some (run ++ c :: r.takeWhile Char.isDigit)
      else some run
    | [] => some run

/-- Match `\d{4}-\d{2}-\d{2}` at the current position (the emergency date
pattern has this single alternative). -/
def isoMatchAt (l : List Char) : Option (List Char) :=
  if matchDatePrefix1 l then some (l.take 10) else none

/-- `DefensiveTransactionParser.emergency_fallback`.  `today` stands for
`datetime.now()`, which the source consults when no ISO date occurs in the
row. -/
def emergency_fallback (today : PDate) (row : Row) : ParsingResult :=
  let rs := chars (rowJoin row)
  let dateStr :=
    match searchFirst isoMatchAt rs with
    | some m => str m
    | none => isoDate today
  match searchFirst emNumAt rs with
  | none => failRes "emergency_fallback" "No amount found"
  | some am =>
    match parse_amount_with_currency (str am) with
    | none => failRes "emergency_fallback" "Could not parse emergency amount"
    | some (a, cur) =>
      { success := true
        transaction := some
          { date := dateStr
            description := "Unknown transaction"
            amount := a
            currency := cur
            type := if a < 0 then "debit" else "credit"
            category := "other"
            confidence_score := 2 / 10 }
        strategy_used := "emergency_fallback"
        confidence := 2 / 10
        error_message := none }

/-- The result returned when every strategy has failed. -/
def all_failed : ParsingResult :=
  ⟨false, none, "all_failed", 0, some "All parsing strategies failed"⟩

/-- `DefensiveTransactionParser.parse_transaction_row`: the five-strategy
ladder, first success wins.  Each strategy already converts its internal
failures into a failure result (the source's per-strategy `try/except` and the
ladder's own `except ... continue` have no remaining raise point to catch), so
the ladder is a total function into `ParsingResult` — it never throws. -/
def parse_transaction_row (today : PDate) (row : Row) (_index : Option Nat) :
    ParsingResult :=
  let r1 := standard_parsing row
  if r1.success then r1
  else
    let r2 := fuzzy_column_matching row
    if r2.success then r2
    else
      let r3 := pattern_based_extraction row
      if r3.success then r3
      else
        let r4 := manual_field_detection row
        if r4.success then r4
        else
          let r5 := emergency_fallback today row
          if r5.success then r5 else all_failed

end FinTrack.DefensiveParser

namespace FinTrack.TP

open FinTrack

/-- A constructed transaction as handed to `_validate_transactions`: an
ordered field-name→value dictionary whose keys may be incomplete. -/
abbrev VTxn := List (String × PyVal)

/-- `f"Transaction {i+1}: {msg}"` without the f-string mechanics. -/
def errorLine (i : Nat) (msg : String) : String :=
  "Transaction " ++ toString (i + 1) ++ ": " ++ msg

/-- The four default-filling steps at the end of `_validate_transactions`'s
accept path: currency, confidence score, type (from the sign of the converted
amount) and category are inserted when absent. -/
def fillDefaults (t : VTxn) (aneg : Bool) : VTxn :=
  let t3 := if hasKey t "currency" then t else upsert t "currency" (.vStr "USD")
  let t4 :=
    if hasKey t3 "confidence_score" then t3
    else upsert t3 "confidence_score" (.vFloat (7 / 10))
  let t5 :=
    if hasKey t4 "type" then t4
    else upsert t4 "type" (.vStr (if aneg then "debit" else "credit"))
  if hasKey t5 "category" then t5 else upsert t5 "category" (.vStr "other")

/-- Validation of one transaction inside `_validate_transactions`'s loop:
`Except.error` marks the `continue` paths (the recorded reason), `Except.ok`
the appended, defaults-filled transaction. -/
def validateOne (t : VTxn) : Except String VTxn :=
  let missing := ["date", "description", "amount"].filter
    (fun f => !hasKey t f || !truthy (getVal t f .vNone))
  if !missing.isEmpty then .error "Missing fields"
  else
    match getVal t "amount" .vNone with
    | .vNone => .error "Amount is None"
    | amountV =>
      -- the converted amount together with the decidable sign of `amount < 0`
      let conv : Option (PyVal × Bool) :=
        match amountV with
        | .vInt n => some (.vInt n, decide (n < 0))
        | .vFloat q => some (.vFloat q, decide (q.num < 0))
        | v =>
          match pyFloatStr (pyStr v) with
          | some (n, m, k) => some (.vFloat (ratOf n m k), negOf n m)
          | none => none
      match conv with
      | none => .error "Cannot convert amount to number"
      | some (av, aneg) =>
        let t1 := upsert t "amount" av
        let ds := pyStrip (pyStr (getVal t1 "description" .vNone))
        if ds = "" || lowerStr ds = "nan" || lowerStr ds = "null" then
          .error "Empty or invalid description"
        else
          let t2 := upsert t1 "description" (.vStr ds)
          .ok (fillDefaults t2 aneg)

/-- The loop of `_validate_transactions`: surviving transactions in order and
the recorded per-row reasons. -/
def validatePass (ts : List VTxn) : List VTxn × List String :=
  (enumF 0 ts).foldl
    (fun acc p =>
      match validateOne p.2 with
      | .ok v => (acc.1 ++ [v], acc.2)
      | .error m => (acc.1, acc.2 ++ [errorLine p.1 m]))
    ([], [])

/-- `TransactionProcessor._validate_transactions`: raises `ValidationError`
(modelled by `Except.error` carrying the message with its representative
reasons) exactly when nothing survives; otherwise returns only the surviving
list — the rejected count is logged, not returned. -/
def validateTransactions (ts : List VTxn) : Except String (List VTxn) :=
  let pass := validatePass ts
  if pass.1.isEmpty then
    .error ("No valid transactions found in file. Errors: " ++
      (if pass.2.isEmpty then "Unknown validation errors"
       else joinWith "; " (pass.2.take 3)))
  else .ok pass.1

end FinTrack.TP

namespace FinTrack.Sanitizer

open FinTrack

/-- A pandas column: an `int64` column (never holding missing values) or an
`object` column of optional strings (`none` is `NaN`).  These are the two
dtypes the sanitised tables of the claims inhabit. -/
inductive ColData
  | ints (xs : List Int)
  | strs (xs : List (Option String))
deriving DecidableEq

/-- A pandas data frame: named columns in order. -/
structure Table where
  cols : List (String × ColData)
deriving DecidableEq

/-- Number of values in a column. -/
def colLen : ColData → Nat
  | .ints xs => xs.length
  | .strs xs => xs.length

/-- Row count (`len(df)`), read off the first column. -/
def nrows (t : Table) : Nat :=
  match t.cols with
  | [] => 0
  | c :: _ => colLen c.2

/-- Whether a column has numeric dtype (`select_dtypes(include=[np.number])`). -/
def isIntCol : String × ColData → Bool
  | (_, .ints _) => true
  | (_, .strs _) => false

/-- Count of numeric-dtype columns. -/
def intColCount (t : Table) : Nat := (t.cols.filter isIntCol).length

/-- All columns have the common row count. -/
def rectangular (t : Table) : Bool :=
  t.cols.all (fun p => colLen p.2 == nrows t)

/-- `str.zfill(2)` on the string of an integer. -/
def zfill2 (s : String) : String :=
  if (chars s).length < 2 then "0" ++ s else s

/-- `DataSanitizer.detect_shifted_row` applied to the first cell's string: at
least three consecutive letters, or a currency glyph. -/
def detect_shifted_row (firstCell : String) : Bool :=
  let l := chars firstCell
  (List.range l.length).any (fun i =>
    ((l.drop i).take 3).length = 3 &&
      ((l.drop i).take 3).all DefensiveParser.isAsciiLetter) ||
  l.any (fun c => ['€', '$', '₹', '£', '¥', '₽', '₱', '₩'].contains c)

/-- `DataSanitizer.fix_shifted_columns`: with fewer than three columns it
returns the table untouched; otherwise it flags shifted rows and writes back
`realign_row(row)` — and `realign_row` returns the row unchanged, so the step
is the identity on the data either way. -/
def fix_shifted_columns (t : Table) : Table :=
  if t.cols.length < 3 then t else t

/-- Replace the data of column `i`. -/
def setColData (t : Table) (i : Nat) (d : ColData) : Table :=
  ⟨(enumF 0 t.cols).map (fun p => if p.1 = i then (p.2.1, d) else p.2)⟩

/-- Drop column `i`. -/
def dropCol (t : Table) (i : Nat) : Table :=
  ⟨((enumF 0 t.cols).filter (fun p => !(p.1 == i))).map (fun p => p.2)⟩

/-- Data of column `i` when it is an `int64` column. -/
def getColInts (t : Table) (i : Nat) : List Int :=
  match t.cols.get? i with
  | some (_, .ints xs) => xs
  | _ => []

/-- `DataSanitizer.merge_split_currency_columns`: if at least two numeric
columns exist and the first ten values of the last one all lie in `[0, 99]`
(an empty sample leaves the NaN comparison false), replace the second-to-last
numeric column by the string concatenation `str(a) ++ "." ++ str(b).zfill(2)`
and drop the last numeric column. -/
def merge_split_currency_columns (t : Table) : Table :=
  let numIdx := ((enumF 0 t.cols).filter (fun p => isIntCol p.2)).map (fun p => p.1)
  match numIdx.reverse with
  | i1 :: i0 :: _ =>
    let c0 := getColInts t i0
    let c1 := getColInts t i1
    let sample := c1.take 10
    if !sample.isEmpty && sample.all (fun v => 0 ≤ v && v ≤ 99) then
      let merged : List (Option String) :=
        (c0.zip c1).map (fun p => some (toString p.1 ++ "." ++ zfill2 (toString p.2)))
      dropCol (setColData t i0 (.strs merged)) i1
    else t
  | _ => t

/-- `unicodedata.normalize('NFKC', s)`.  NFKC is the identity on the
characters this pipeline handles (ASCII text and the already-composed currency
glyphs), which is how it is modelled; the subsequent replacement table of the
source maps each glyph to itself. -/
def nfkc (s : String) : String := s

/-- `df[col].astype(str)` on one cell: a missing value becomes the literal
string `"nan"`. -/
def astypeStrCell : Option String → String
  | some s => s
  | none => "nan"

/-- `DataSanitizer.normalize_unicode_string`. -/
def normalize_unicode_string (s : String) : String :=
  if s = "nan" then s else nfkc s

/-- `DataSanitizer.normalize_unicode_symbols`: object columns only. -/
def normalize_unicode_symbols (t : Table) : Table :=
  ⟨t.cols.map (fun p =>
    match p.2 with
    | .ints xs => (p.1, .ints xs)
    | .strs xs =>
      (p.1, .strs (xs.map (fun c => some (normalize_unicode_string (astypeStrCell c))))))⟩

/-- The quote characters of `r'^["\']|["\']$'`. -/
def quoteChars : List Char := ['"', '\'']

/-- `re.sub(r'^["\']|["\']$', '', s)`: one leading and one trailing quote
character removed per pass. -/
def unquote (l : List Char) : List Char :=
  let l1 :=
    match l with
    | c :: rest => if quoteChars.contains c then rest else l
    | [] => []
  match l1.reverse with
  | c :: rest => if quoteChars.contains c then rest.reverse else l1
  | [] => l1

/-- `re.sub(r'\s+', ' ', s)`: collapse whitespace runs to single spaces. -/
def collapseWS (l : List Char) : List Char :=
  (l.foldl
    (fun (acc : List Char × Bool) c =>
      if isPySpace c then (if acc.2 then acc else (acc.1 ++ [' '], true))
      else (acc.1 ++ [c], false))
    ([], false)).1

/-- The per-cell transform of `clean_whitespace_and_quotes`: `astype(str)`,
strip, strip wrapping quotes, collapse whitespace. -/
def cleanCellStr (s : String) : String :=
  str (collapseWS (unquote (stripChars (chars s))))

/-- One object cell after `clean_whitespace_and_quotes`, including the final
`replace('', np.nan)`. -/
def cleanCell (c : Option String) : Option String :=
  let s1 := cleanCellStr (astypeStrCell c)
  if s1 = "" then none else some s1

/-- `DataSanitizer.clean_whitespace_and_quotes`: object columns only. -/
def clean_whitespace_and_quotes (t : Table) : Table :=
  ⟨t.cols.map (fun p =>
    match p.2 with
    | .ints xs => (p.1, .ints xs)
    | .strs xs => (p.1, .strs (xs.map cleanCell)))⟩

/-- The string of cell `i` of a column, `none` when the cell is missing
(`pd.notna` fails). -/
def cellStr (d : ColData) (i : Nat) : Option String :=
  match d with
  | .ints xs => (xs.get? i).map toString
  | .strs xs =>
    match xs.get? i with
    | some (some s) => some s
    | _ => none

/-- The non-missing cells of row `i`, in column order. -/
def rowCells (t : Table) (i : Nat) : List (Option String) :=
  t.cols.map (fun p => cellStr p.2 i)

/-- `df.dropna(how='all')` membership test for row `i`. -/
def rowAllNa (t : Table) (i : Nat) : Bool :=
  (rowCells t i).all Option.isNone

/-- `' '.join(str(val) for val in row.values if pd.notna(val))` for row `i`. -/
def rowStrAt (t : Table) (i : Nat) : String :=
  joinWith " " ((rowCells t i).filterMap id)

/-- `re.match(r'^[-=_]+$', s)`. -/
def sepRow (s : String) : Bool :=
  !(chars s).isEmpty && (chars s).all (fun c => c = '-' || c = '=' || c = '_')

/-- The canonical leading tokens of the repeated-header pattern. -/
def headerLeads : List String := ["date", "description", "amount", "type", "category"]

/-- `re.match(r'^(date|description|amount|type|category)', s, re.IGNORECASE)`. -/
def headerRow (s : String) : Bool :=
  headerLeads.any (fun h => (chars h).isPrefixOf (chars (lowerStr s)))

/-- Keep the rows whose index satisfies the predicate. -/
def filterRowsData (keep : Nat → Bool) : ColData → ColData
  | .ints xs => .ints (((enumF 0 xs).filter (fun p => keep p.1)).map (fun p => p.2))
  | .strs xs => .strs (((enumF 0 xs).filter (fun p => keep p.1)).map (fun p => p.2))

/-- Row selection applied to every column. -/
def filterRows (t : Table) (keep : Nat → Bool) : Table :=
  ⟨t.cols.map (fun p => (p.1, filterRowsData keep p.2))⟩

/-- `DataSanitizer.fix_csv_artifacts`: drop all-missing rows, then drop
separator-looking and repeated-header rows (the index reset of the source has
no observable effect in the positional model). -/
def fix_csv_artifacts (t : Table) : Table :=
  let t1 := filterRows t (fun i => !rowAllNa t i)
  filterRows t1 (fun i => !(sepRow (rowStrAt t1 i) || headerRow (rowStrAt t1 i)))

/-- Missing-cell count (`df.isnull().sum().sum()`). -/
def nullCount (t : Table) : Nat :=
  (t.cols.map (fun p =>
    match p.2 with
    | .ints _ => 0
    | .strs xs => (xs.filter Option.isNone).length)).sum

/-- The change report of `DataSanitizer.validate_sanitization`. -/
structure Changes where
  rows_removed : Int
  columns_changed : Int
  empty_cells_before : Nat
  empty_cells_after : Nat
deriving DecidableEq

/-- `DataSanitizer.validate_sanitization`. -/
def validate_sanitization (orig new : Table) : Changes :=
  ⟨(nrows orig : Int) - (nrows new : Int),
   (orig.cols.length : Int) - (new.cols.length : Int),
   nullCount orig, nullCount new⟩

/-- The five cleaning steps of `sanitize_csv_data`, in the source's order. -/
def sanitizePipeline (t : Table) : Table :=
  fix_csv_artifacts
    (clean_whitespace_and_quotes
      (normalize_unicode_symbols
        (merge_split_currency_columns
          (fix_shifted_columns t))))

/-- The `try/except` combinator of `sanitize_csv_data`: run the step pipeline;
on any raised exception return the untouched copy of the original table. -/
def sanitizeRun (steps : Table → Except String Table) (t : Table) : Table :=
  match steps t with
  | .ok r => r
  | .error _ => t

/-- `DataSanitizer.sanitize_csv_data`.  In the model the five steps are total,
so the pipeline is injected as an always-`ok` step function; the `except`
branch of `sanitizeRun` is exactly the source's fail-open return. -/
def sanitize_csv_data (t : Table) : Table :=
  sanitizeRun (fun u => Except.ok (sanitizePipeline u)) t

end FinTrack.Sanitizer

namespace FinTrack.Sanitizer

open FinTrack

/-- One object cell is already fully clean: present, and a fixed point of the
whitespace/quote cleanup. -/
def cellClean : Option String → Bool
  | none => false
  | some s => cleanCell (some s) == some s

/-- Every object cell of the table is clean. -/
def tableCellsClean (t : Table) : Bool :=
  t.cols.all (fun p =>
    match p.2 with
    | .ints _ => true
    | .strs xs => xs.all cellClean)

/-- No row of the table would be dropped by `fix_csv_artifacts`. -/
def noBadRows (t : Table) : Bool :=
  (List.range (nrows t)).all (fun i =>
    !rowAllNa t i && !sepRow (rowStrAt t i) && !headerRow (rowStrAt t i))

/-- A table on which every sanitiser step is the identity: rectangular, at
most one numeric column (so the split-currency merge cannot fire), every
object cell present and already cleaned, and no droppable row. -/
def isCleanTable (t : Table) : Bool :=
  rectangular t && decide (intColCount t ≤ 1) && tableCellsClean t && noBadRows t

end FinTrack.Sanitizer

namespace FinTrack.RobustCSV

open FinTrack FinTrack.Sanitizer

/-- `s.str.contains(r'\d+\.?\d*')` on one rendered cell: the regex finds a
match exactly when some character is a digit. -/
def cellHasDigit (s : String) : Bool := (chars s).any Char.isDigit

/-- The content fallback of `validate_csv_structure`: some cell of some
column, rendered with `astype(str)`, contains a digit. -/
def anyDigitCell (t : Table) : Bool :=
  t.cols.any (fun p =>
    match p.2 with
    | .ints xs => xs.any (fun v => cellHasDigit (toString v))
    | .strs xs => xs.any (fun c => cellHasDigit (astypeStrCell c)))

/-- `RobustCSVProcessor.validate_csv_structure`. -/
def validate_csv_structure (t : Table) : Bool :=
  if nrows t = 0 || t.cols.length = 0 then false
  else if t.cols.length < 3 then false
  else if intColCount t ≠ 0 then true
  else anyDigitCell t

/-- Modelled from the spec's words for comparison (claim C7): "at least one
column exhibiting numeric-looking content (either a native numeric type or a
majority-numeric string pattern)" — a strict majority of the column's values
match the numeric pattern. -/
def specMajorityNumericCol (t : Table) : Bool :=
  t.cols.any (fun p =>
    match p.2 with
    | .ints _ => true
    | .strs xs => (xs.filter (fun c => cellHasDigit (astypeStrCell c))).length * 2 > xs.length)

end FinTrack.RobustCSV

namespace FinTrack.Spec

open FinTrack

/-- Modelled from the spec's words for comparison (claim C2): for a token
containing only a comma, "treat it as decimal when at most two digits follow
it, otherwise as thousands". -/
def specCommaOnlyResolve (l : List Char) : List Char :=
  match rfindIdx ',' l with
  | some i =>
    if ((l.drop (i + 1)).filter Char.isDigit).length ≤ 2 then
      l.map (fun c => if c = ',' then '.' else c)
    else l.filter (fun c => !(c == ','))
  | none => l

end FinTrack.Spec

namespace FinTrack.TP

open FinTrack

/-- Whether a value is Python-numeric (`isinstance(v, (int, float))`). -/
def isNumV : PyVal → Bool
  | .vInt _ => true
  | .vFloat _ => true
  | _ => false

end FinTrack.TP

namespace FinTrack.Examples

open FinTrack FinTrack.DefensiveParser FinTrack.Sanitizer

/-- Four integer columns: the split-currency merge fires on `c`/`d` in a first
sanitiser pass and then again on `a`/`b` in a second pass. -/
def T0 : Table := ⟨[("a", .ints [1]), ("b", .ints [2]), ("c", .ints [3]), ("d", .ints [4])]⟩

/-- A table the sanitiser leaves untouched. -/
def TW : Table :=
  ⟨[("date", .strs [some "2024-01-01"]), ("description", .strs [some "Lunch"]),
    ("amount", .ints [5])]⟩

/-- Three text columns, nine letter-only cells and a single cell containing a
digit. -/
def T7 : Table :=
  ⟨[("a", .strs [some "xx", some "yy", some "z9"]),
    ("b", .strs [some "pp", some "qq", some "rr"]),
    ("c", .strs [some "mm", some "nn", some "oo"])]⟩

/-- A transaction with numeric amount `0`, non-empty description and a
parseable date. -/
def txBad : TP.VTxn :=
  [("date", .vStr "2024-01-01"), ("description", .vStr "Groceries"), ("amount", .vInt 0)]

/-- A transaction the validator accepts. -/
def txGood : TP.VTxn :=
  [("date", .vStr "2024-01-01"), ("description", .vStr "Coffee"), ("amount", .vInt 5)]

/-- The survivor list the validator produces from `[txGood]`. -/
def VS0 : List TP.VTxn :=
  [[("date", .vStr "2024-01-01"), ("description", .vStr "Coffee"), ("amount", .vInt 5),
    ("currency", .vStr "USD"), ("confidence_score", .vFloat (7 / 10)),
    ("type", .vStr "credit"), ("category", .vStr "other")]]

/-- A row whose description cell is a single space: truthy before stripping,
empty after. -/
def rowBug : Row :=
  [("Date", .vStr "2024-01-01"), ("Description", .vStr " "), ("Amount", .vStr "5")]

/-- A row the standard strategy accepts. -/
def rowStd : Row :=
  [("date", .vStr "2024-01-01"), ("description", .vStr "Lunch place"),
   ("amount", .vStr "5.00")]

/-- A row the fuzzy strategy accepts. -/
def rowFuzzy : Row :=
  [("a", .vStr "2024-01-02"), ("b", .vStr "€9.99"), ("c", .vStr "Coffee Shop")]

/-- A row the pattern strategy accepts. -/
def rowPat : Row :=
  [("a", .vStr "2024-01-03"), ("b", .vStr "$12.34"), ("c", .vStr "Taxi ride")]

/-- A row the manual strategy accepts. -/
def rowMan : Row :=
  [("a", .vStr "2024-01-04"), ("b", .vStr "7.50"), ("c", .vStr "Groceries here")]

/-- A row only the emergency strategy accepts. -/
def rowEm : Row := [("a", .vStr "zz"), ("b", .vStr "55")]

end FinTrack.Examples

namespace FinTrack

open FinTrack.DefensiveParser FinTrack.Examples

/-- Claim C1 counterexample: the defensive parser's `parse_amount_with_currency`
classifies the token `"R$250,50"` by its embedded `'$'` — its symbol table
lists every single-character symbol before the multi-character prefixes — so the
token yields amount `250.50` but currency `"USD"`, not `"BRL"` as the claim
states for every amount/currency parser. -/
theorem c1_counterexample :
    DefensiveParser.parse_amount_with_currency "R$250,50" = some (250.50, "USD") ∧
    ("USD" : String) ≠ "BRL" := by
  have h : DefensiveParser.parse_amount_with_currency "R$250,50"
      = some (ratOf false 25050 2, "USD") := rfl
  have hv : ratOf false 25050 2 = (250.50 : ℚ) := by norm_num [ratOf]
  exact ⟨by rw [h, hv], by decide⟩

/-- Claim C2 counterexample: for the comma-only token `"1,2,"` zero digits
follow the last comma, so the claim's rule ("decimal when at most two digits
follow it") makes the comma a decimal separator, turning the token into the
unparseable `"1.2."`; `_parse_amount` instead requires at least one character
after the comma, takes the thousands branch, and returns `12`. -/
theorem c2_counterexample :
    TP.parse_amount "1,2," = (some 12, "USD") ∧
    Spec.specCommaOnlyResolve (cleanAmountChars "1,2,") = chars "1.2." ∧
    pyFloat? (chars "1.2.") = none := by
  have h : TP.parse_amount "1,2," = (some (ratOf false 12 0), "USD") := rfl
  have hv : ratOf false 12 0 = (12 : ℚ) := by norm_num [ratOf]
  exact ⟨by rw [h, hv], by decide, by decide⟩

/-- An `rfind` index exists for every character the list contains. -/
theorem rfind_some_of_contains (c : Char) (l : List Char)
    (h : l.contains c = true) : ∃ i, rfindIdx c l = some i := by
  unfold rfindIdx
  cases hf : l.reverse.findIdx? (· = c) with
  | some j => exact ⟨l.length - 1 - j, rfl⟩
  | none =>
    exfalso
    rw [List.findIdx?_eq_none_iff] at hf
    have hm : c ∈ l := by simpa using h
    have hc := hf c (List.mem_reverse.mpr hm)
    simp at hc

/-- Claim C2 (amended): the separator rules, universally over tokens.  With
both separators present the two resolvers agree and the later separator is the
decimal one — when the last comma follows the last dot, the dots are removed
and the comma becomes a dot; when the last dot follows the last comma, the
commas are removed.  For a comma-only token, `parse_amount_with_currency`
turns commas into dots exactly when at most two characters follow the last
comma, while `_parse_amount` additionally requires at least one following
character and otherwise strips the commas as thousands separators.  On the
claim's concrete tokens, `"1.234,56"` and `"1,234.56"` both parse to `1234.56`
in both parsers, `"1,2,"` fails in the defensive parser (it becomes the
unparseable `"1.2."`) and returns `12` from `_parse_amount`. -/
theorem c2_amended :
    (∀ l : List Char, l.contains ',' = true → l.contains '.' = true →
      TP.resolveSeparatorsTP l = DefensiveParser.resolveSeparators l ∧
      ∃ lc ld, rfindIdx ',' l = some lc ∧ rfindIdx '.' l = some ld ∧
        (ld < lc →
          DefensiveParser.resolveSeparators l =
            (l.filter (fun c => !(c == '.'))).map
              (fun c => if c = ',' then '.' else c)) ∧
        (lc < ld →
          DefensiveParser.resolveSeparators l =
            l.filter (fun c => !(c == ',')))) ∧
    (∀ l : List Char, l.contains ',' = true → l.contains '.' = false →
      ∀ i : Nat, rfindIdx ',' l = some i →
      ((l.drop (i + 1)).length ≤ 2 →
        DefensiveParser.resolveSeparators l =
          l.map (fun c => if c = ',' then '.' else c)) ∧
      (2 < (l.drop (i + 1)).length →
        DefensiveParser.resolveSeparators l =
          l.filter (fun c => !(c == ','))) ∧
      (0 < (l.drop (i + 1)).length → (l.drop (i + 1)).length ≤ 2 →
        TP.resolveSeparatorsTP l = l.map (fun c => if c = ',' then '.' else c)) ∧
      ((l.drop (i + 1)).length = 0 ∨ 2 < (l.drop (i + 1)).length →
        TP.resolveSeparatorsTP l = l.filter (fun c => !(c == ',')))) ∧
    DefensiveParser.parse_amount_with_currency "1.234,56" = some (1234.56, "USD") ∧
    DefensiveParser.parse_amount_with_currency "1,234.56" = some (1234.56, "USD") ∧
    TP.parse_amount "1.234,56" = (some 1234.56, "USD") ∧
    TP.parse_amount "1,234.56" = (some 1234.56, "USD") ∧
    DefensiveParser.parse_amount_with_currency "1,2," = none ∧
    TP.parse_amount "1,2," = (some 12, "USD") := by
  have hv : ratOf false 123456 2 = (1234.56 : ℚ) := by norm_num [ratOf]
  have hv12 : ratOf false 12 0 = (12 : ℚ) := by norm_num [ratOf]
  refine ⟨?_, ?_, ?_, ?_, ?_, ?_, by decide, ?_⟩
  · intro l hc hd
    obtain ⟨lc, hlc⟩ := rfind_some_of_contains ',' l hc
    obtain ⟨ld, hld⟩ := rfind_some_of_contains '.' l hd
    constructor
    · unfold TP.resolveSeparatorsTP DefensiveParser.resolveSeparators
      rw [if_pos (by rw [hc, hd]; rfl), if_pos (by rw [hc, hd]; rfl), hlc, hld]
    · refine ⟨lc, ld, hlc, hld, ?_, ?_⟩
      · intro hlt
        simp only [DefensiveParser.resolveSeparators, hc, hd, hlc, hld,
          Bool.and_self, if_true]
        rw [if_pos hlt]
      · intro hlt
        simp only [DefensiveParser.resolveSeparators, hc, hd, hlc, hld,
          Bool.and_self, if_true]
        rw [if_neg (Nat.lt_asymm hlt)]
  · intro l hc hd i hi
    refine ⟨?_, ?_, ?_, ?_⟩
    · intro hlen
      simp only [DefensiveParser.resolveSeparators, hc, hd, Bool.and_false,
        Bool.false_eq_true, if_false, if_true, hi]
      rw [if_pos hlen]
    · intro hlen
      simp only [DefensiveParser.resolveSeparators, hc, hd, Bool.and_false,
        Bool.false_eq_true, if_false, if_true, hi]
      rw [if_neg (Nat.not_le.mpr hlen)]
    · intro h1 h2
      simp only [TP.resolveSeparatorsTP, hc, hd, Bool.and_false,
        Bool.false_eq_true, if_false, if_true, hi]
      rw [if_pos (by rw [decide_eq_true h2, decide_eq_true h1]; rfl)]
    · intro hcase
      have hneg : ¬ ((decide ((l.drop (i + 1)).length ≤ 2) &&
          decide (0 < (l.drop (i + 1)).length)) = true) := by
        rcases hcase with h0 | h3
        · rw [h0]; simp
        · rw [decide_eq_false (Nat.not_le.mpr h3)]; simp
      simp only [TP.resolveSeparatorsTP, hc, hd, Bool.and_false,
        Bool.false_eq_true, if_false, if_true, hi]
      rw [if_neg hneg]
  · have h : DefensiveParser.parse_amount_with_currency "1.234,56"
        = some (ratOf false 123456 2, "USD") := rfl
    rw [h, hv]
  · have h : DefensiveParser.parse_amount_with_currency "1,234.56"
        = some (ratOf false 123456 2, "USD") := rfl
    rw [h, hv]
  · have h : TP.parse_amount "1.234,56" = (some (ratOf false 123456 2), "USD") := rfl
    rw [h, hv]
  · have h : TP.parse_amount "1,234.56" = (some (ratOf false 123456 2), "USD") := rfl
    rw [h, hv]
  · have h : TP.parse_amount "1,2," = (some (ratOf false 12 0), "USD") := rfl
    rw [h, hv12]

/-- Witness for the amended C2: the universal separator rules applied at
concrete tokens — `"1.234,56"` (both separators: resolvers agree), `"1,25"`
(two characters after the comma: the defensive parser maps it to a dot) and
`"1,2,"` (zero characters after the last comma: `_parse_amount` strips the
commas). -/
theorem c2_amended_witness :
    TP.resolveSeparatorsTP (chars "1.234,56") =
      DefensiveParser.resolveSeparators (chars "1.234,56") ∧
    DefensiveParser.resolveSeparators (chars "1,25") =
      (chars "1,25").map (fun c => if c = ',' then '.' else c) ∧
    TP.resolveSeparatorsTP (chars "1,2,") =
      (chars "1,2,").filter (fun c => !(c == ',')) := by
  refine ⟨(c2_amended.1 (chars "1.234,56") (by decide) (by decide)).1, ?_, ?_⟩
  · exact (c2_amended.2.1 (chars "1,25") (by decide) (by decide) 1 (by decide)).1
      (by decide)
  · exact (c2_amended.2.1 (chars "1,2,") (by decide) (by decide) 3 (by decide)).2.2.2
      (Or.inl (by decide))

/-- Claim C10, failing input evaluated: on a row whose description cell is a
single space, `standard_parsing` returns a *Success* with confidence `0.9`
(the truthiness check runs before stripping) whose transaction carries an
empty description — violating the non-empty-description invariant the claim
states and the parser's own `validate_transaction` checks. -/
theorem c10_code_bug :
    (DefensiveParser.standard_parsing rowBug).success = true ∧
    (DefensiveParser.standard_parsing rowBug).transaction.map Txn.description = some "" ∧
    (DefensiveParser.standard_parsing rowBug).confidence = 9 / 10 := by
  exact ⟨rfl, rfl, rfl⟩

/-- Claim C5: the `try/except` combinator of `sanitize_csv_data` is fail-open
and atomic — whenever the step pipeline raises, the original input table is
returned unchanged; hence the sanitiser always returns either the pipeline's
cleaned table or the exact original. -/
theorem c5_fail_open (steps : Sanitizer.Table → Except String Sanitizer.Table)
    (t : Sanitizer.Table) :
    (∀ e, steps t = Except.error e → Sanitizer.sanitizeRun steps t = t) ∧
    (Sanitizer.sanitizeRun steps t = t ∨
      ∃ u, steps t = Except.ok u ∧ Sanitizer.sanitizeRun steps t = u) ∧
    Sanitizer.sanitize_csv_data t =
      Sanitizer.sanitizeRun (fun u => Except.ok (Sanitizer.sanitizePipeline u)) t := by
  refine ⟨?_, ?_, rfl⟩
  · intro e he
    unfold Sanitizer.sanitizeRun
    rw [he]
  · unfold Sanitizer.sanitizeRun
    cases hs : steps t with
    | ok u => exact Or.inr ⟨u, rfl, rfl⟩
    | error e => exact Or.inl rfl

/-- Claim C5 witness: a concretely failing step function makes `sanitizeRun`
return the original single-column table. -/
theorem c5_fail_open_witness :
    Sanitizer.sanitizeRun (fun _ => Except.error "step failure") Examples.TW = Examples.TW :=
  (c5_fail_open (fun _ => Except.error "step failure") Examples.TW).1 "step failure" rfl

/-- Claim C7 counterexample: a three-column, three-row table whose only digit
appears in a single cell is accepted by `validate_csv_structure` (the content
check is `.any()`, one matching cell anywhere suffices), although no column has
a native numeric dtype and no column has a majority of numeric-looking values
as the claim requires. -/
theorem c7_counterexample :
    RobustCSV.validate_csv_structure Examples.T7 = true ∧
    Sanitizer.intColCount Examples.T7 = 0 ∧
    RobustCSV.specMajorityNumericCol Examples.T7 = false := by
  exact ⟨by decide, by decide, by decide⟩

/-- Claim C9 counterexample: on a table of four integer columns the
split-currency merge fires once per pass — the first pass merges the last two
columns, the second pass merges the remaining two — so the sanitiser is not
idempotent and the second pass reports one column changed. -/
theorem c9_counterexample :
    Sanitizer.sanitize_csv_data (Sanitizer.sanitize_csv_data Examples.T0) ≠
      Sanitizer.sanitize_csv_data Examples.T0 ∧
    (Sanitizer.validate_sanitization (Sanitizer.sanitize_csv_data Examples.T0)
      (Sanitizer.sanitize_csv_data (Sanitizer.sanitize_csv_data Examples.T0))).columns_changed
      = 1 := by
  exact ⟨by decide, by decide⟩

end FinTrack

namespace FinTrack

open FinTrack.DefensiveParser FinTrack.Examples

/-- First-match search over an appended pattern list lands in the first block
whenever some pattern of the first block matches. -/
theorem findPat_mem_of_hit (s : String) (l2 : List (TP.CurPat × String)) :
    ∀ l1 : List (TP.CurPat × String),
      (∃ pc ∈ l1, TP.matchPat s pc.1 = true) →
      TP.findPat (l1 ++ l2) s ∈ l1.map Prod.snd := by
  intro l1
  induction l1 with
  | nil => rintro ⟨pc, hmem, _⟩; exact absurd hmem (List.not_mem_nil pc)
  | cons hd tl ih =>
    rintro ⟨pc, hmem, hmatch⟩
    obtain ⟨p, c⟩ := hd
    by_cases hh : TP.matchPat s p = true
    · rw [List.cons_append]
      simp only [TP.findPat]
      rw [if_pos hh, List.map_cons]
      exact List.mem_cons_self _ _
    · have hmem' : pc ∈ tl := by
        cases hmem with
        | head => exact absurd hmatch hh
        | tail _ h1 => exact h1
      have hstep : TP.findPat (((p, c) :: tl) ++ l2) s = TP.findPat (tl ++ l2) s := by
        rw [List.cons_append]
        simp only [TP.findPat]
        rw [if_neg hh]
      rw [hstep, List.map_cons]
      exact List.mem_cons_of_mem _ (ih ⟨pc, hmem', hmatch⟩)

/-- Claim C1 (amended): `detect_currency_from_amount` does test the
multi-character prefixes before every single-character symbol — a token whose
stripped form contains one of them is always classified by one of their codes —
and `_parse_amount("R$250,50")` yields `(250.50, "BRL")`; the defensive
parser's `parse_amount_with_currency`, whose table lists the single-character
symbols first, instead classifies `"R$250,50"` as `(250.50, "USD")`. -/
theorem c1_amended (s : String)
    (h : ∃ pc ∈ TP.multiPats, TP.matchPat (pyStrip s) pc.1 = true) :
    TP.detect_currency_from_amount s ∈
      ["CAD", "AUD", "BRL", "MYR", "SGD", "HKD", "NZD", "IDR"] ∧
    TP.parse_amount "R$250,50" = (some 250.50, "BRL") ∧
    DefensiveParser.parse_amount_with_currency "R$250,50" = some (250.50, "USD") := by
  have hv : ratOf false 25050 2 = (250.50 : ℚ) := by norm_num [ratOf]
  refine ⟨?_, ?_, ?_⟩
  · by_cases hs : s = ""
    · exfalso
      subst hs
      rcases h with ⟨pc, hmem, hmatch⟩
      fin_cases hmem <;> exact absurd hmatch (by decide)
    · unfold TP.detect_currency_from_amount
      rw [if_neg hs]
      have hp := findPat_mem_of_hit (pyStrip s) TP.restPats TP.multiPats h
      have hcodes : TP.multiPats.map Prod.snd =
          ["CAD", "AUD", "BRL", "MYR", "SGD", "HKD", "NZD", "IDR"] := by decide
      rw [hcodes] at hp
      exact hp
  · have h1 : TP.parse_amount "R$250,50" = (some (ratOf false 25050 2), "BRL") := rfl
    rw [h1, hv]
  · have h1 : DefensiveParser.parse_amount_with_currency "R$250,50"
        = some (ratOf false 25050 2, "USD") := rfl
    rw [h1, hv]

/-- Claim C1 witness: the amended theorem applied to the token `"R$250,50"`,
which contains the multi-character prefix `"R$"`. -/
theorem c1_witness :
    TP.detect_currency_from_amount "R$250,50" ∈
      ["CAD", "AUD", "BRL", "MYR", "SGD", "HKD", "NZD", "IDR"] :=
  (c1_amended "R$250,50" ⟨(TP.CurPat.sub "R$", "BRL"), by decide, by decide⟩).1

end FinTrack

namespace FinTrack

open FinTrack.DefensiveParser FinTrack.Examples

/-- A predicate holding on every element still holds after a `filter`. -/
theorem all_filter_of_all {P : Char → Bool} (p : Char → Bool) :
    ∀ l : List Char, l.all P = true → (l.filter p).all P = true := by
  intro l h
  rw [List.all_eq_true] at h ⊢
  intro c hc
  exact h c (List.mem_of_mem_filter hc)

/-- Digit-freeness survives the comma-to-dot substitution. -/
theorem all_noDigit_commaMap :
    ∀ l : List Char, l.all (fun c => !c.isDigit) = true →
      (l.map (fun c => if c = ',' then '.' else c)).all (fun c => !c.isDigit) = true := by
  intro l h
  rw [List.all_eq_true] at h ⊢
  intro c hc
  rcases List.mem_map.mp hc with ⟨d, hd, hdc⟩
  by_cases hcomma : d = ','
  · rw [if_pos hcomma] at hdc
    rw [← hdc]
    decide
  · rw [if_neg hcomma] at hdc
    rw [← hdc]
    exact h d hd

/-- Digit-freeness survives `resolveSeparators` (defensive variant). -/
theorem resolveSeparators_noDigit (l : List Char)
    (h : l.all (fun c => !c.isDigit) = true) :
    (DefensiveParser.resolveSeparators l).all (fun c => !c.isDigit) = true := by
  unfold DefensiveParser.resolveSeparators
  split
  · split
    · split
      · exact all_noDigit_commaMap _ (all_filter_of_all _ l h)
      · exact all_filter_of_all _ l h
    · exact h
  · split
    · split
      · split
        · exact all_noDigit_commaMap l h
        · exact all_filter_of_all _ l h
      · exact h
    · exact h

/-- Digit-freeness survives `resolveSeparatorsTP`. -/
theorem resolveSeparatorsTP_noDigit (l : List Char)
    (h : l.all (fun c => !c.isDigit) = true) :
    (TP.resolveSeparatorsTP l).all (fun c => !c.isDigit) = true := by
  unfold TP.resolveSeparatorsTP
  split
  · split
    · split
      · exact all_noDigit_commaMap _ (all_filter_of_all _ l h)
      · exact all_filter_of_all _ l h
    · exact h
  · split
    · split
      · dsimp only
        split
        · exact all_noDigit_commaMap l h
        · exact all_filter_of_all _ l h
      · exact h
    · exact h

/-- `float()` fails on a token with no digits. -/
theorem pyFloatCore_noDigit (l : List Char)
    (h : l.all (fun c => !c.isDigit) = true) : pyFloatCore l = none := by
  have hip : l.takeWhile Char.isDigit = [] := by
    cases l with
    | nil => rfl
    | cons c rest =>
      have hc : c.isDigit = false := by
        have := List.all_eq_true.mp h c (List.mem_cons_self c rest)
        simpa using this
      simp [List.takeWhile_cons, hc]
  have htail : l.tail.all (fun c => !c.isDigit) = true := by
    cases l with
    | nil => rfl
    | cons c rest =>
      simp only [List.all_cons, Bool.and_eq_true] at h
      exact h.2
  simp only [pyFloatCore, hip, List.length_nil, List.drop_zero]
  split_ifs with h1 h2 h3
  · rfl
  · exfalso
    rcases h3 with ⟨ha, hb⟩
    rcases hb with hb | hb
    · exact hb rfl
    · obtain ⟨d, tl, hdt⟩ : ∃ d tl, l.tail = d :: tl := by
        cases htl : l.tail with
        | nil => exact absurd htl hb
        | cons d tl => exact ⟨d, tl, rfl⟩
      rw [hdt] at ha htail
      simp only [List.all_cons, Bool.and_eq_true] at ha htail
      rw [ha.1] at htail
      simpa using htail.1
  · rfl
  · rfl

/-- `float()` with an optional sign fails on a token with no digits. -/
theorem pyFloat?_noDigit (l : List Char)
    (h : l.all (fun c => !c.isDigit) = true) : pyFloat? l = none := by
  unfold pyFloat?
  split
  · rename_i t
    have ht : t.all (fun c => !c.isDigit) = true := by
      simp only [List.all_cons, Bool.and_eq_true] at h
      exact h.2
    rw [pyFloatCore_noDigit t ht]
    rfl
  · rename_i t
    have ht : t.all (fun c => !c.isDigit) = true := by
      simp only [List.all_cons, Bool.and_eq_true] at h
      exact h.2
    rw [pyFloatCore_noDigit t ht]
    rfl
  · rw [pyFloatCore_noDigit _ h]
    rfl

end FinTrack

namespace FinTrack

open FinTrack.DefensiveParser FinTrack.Examples

/-- If the cleaned token has no digits, neither does the cleaned form of the
stripped token. -/
theorem cleanStrip_noDigit (s : String)
    (h : (cleanAmountChars s).all (fun c => !c.isDigit) = true) :
    (cleanAmountChars (pyStrip s)).all (fun c => !c.isDigit) = true := by
  have hs : (chars s).all (fun c => !c.isDigit) = true := by
    rw [List.all_eq_true] at h ⊢
    intro c hc
    by_cases hd : c.isDigit
    · have hmem : c ∈ cleanAmountChars s := by
        unfold cleanAmountChars
        exact List.mem_filter.mpr ⟨hc, by simp [hd]⟩
      have := h c hmem
      simp [hd] at this
    · simp [hd]
  have hstrip : (stripChars (chars s)).all (fun c => !c.isDigit) = true := by
    rw [List.all_eq_true] at hs ⊢
    intro c hc
    apply hs
    unfold stripChars at hc
    rw [List.mem_reverse] at hc
    have h1 := (List.dropWhile_sublist _).subset hc
    rw [List.mem_reverse] at h1
    exact (List.dropWhile_sublist _).subset h1
  have hch : chars (pyStrip s) = stripChars (chars s) := rfl
  unfold cleanAmountChars
  rw [hch]
  exact all_filter_of_all _ _ hstrip

/-- Both amount parsers fail when no digits remain after stripping every
character but digits, separators and signs. -/
theorem parse_amount_noDigit (s : String)
    (h : (cleanAmountChars s).all (fun c => !c.isDigit) = true) :
    DefensiveParser.parse_amount_with_currency s = none ∧
    (TP.parse_amount s).1 = none := by
  have hclean := cleanStrip_noDigit s h
  constructor
  · simp only [DefensiveParser.parse_amount_with_currency]
    split
    · rfl
    · split
      · rfl
      · rw [pyFloat?_noDigit _ (resolveSeparators_noDigit _ hclean)]
  · simp only [TP.parse_amount]
    split
    · rfl
    · split
      · rfl
      · split
        · rfl
        · rw [pyFloat?_noDigit _
            (all_filter_of_all _ _ (resolveSeparatorsTP_noDigit _ hclean))]

end FinTrack

namespace FinTrack

/-- Absolute value of a signed scaled decimal. -/
theorem ratOf_abs (neg : Bool) (m k : Nat) : |ratOf neg m k| = (m : ℚ) / 10 ^ k := by
  have h10 : (0 : ℚ) < 10 ^ k := by positivity
  cases neg
  · show |(m : ℚ) / 10 ^ k| = (m : ℚ) / 10 ^ k
    rw [abs_div, abs_of_nonneg (Nat.cast_nonneg m), abs_of_pos h10]
  · show |(-(m : ℚ)) / 10 ^ k| = (m : ℚ) / 10 ^ k
    rw [abs_div, abs_neg, abs_of_nonneg (Nat.cast_nonneg m), abs_of_pos h10]

/-- A signed scaled decimal with zero mantissa is zero. -/
theorem ratOf_zero (neg : Bool) (k : Nat) : ratOf neg 0 k = 0 := by
  cases neg <;> simp [ratOf]

/-- `_parse_amount` only returns amounts inside the sane magnitude bound. -/
theorem tp_parse_bound (s : String) (a : ℚ) (c : String)
    (h : TP.parse_amount s = (some a, c)) :
    |a| ≤ 1000000000 ∧ (a = 0 ∨ 1 / 1000000 ≤ |a|) := by
  revert h
  simp only [TP.parse_amount]
  split
  · intro h
    simp at h
  · split
    · intro h
      simp at h
    · split
      · intro h
        simp at h
      · split
        · intro h
          simp at h
        · rename_i fst0 m k heq
          split
          · intro h
            simp at h
          · rename_i hguard
            intro h
            rw [Prod.mk.injEq] at h
            obtain ⟨h1, _⟩ := h
            injection h1 with ha
            rw [← ha]
            simp only [Bool.or_eq_true, Bool.and_eq_true, decide_eq_true_eq,
              Bool.not_eq_true', beq_iff_eq, not_or, not_and] at hguard
            obtain ⟨hg1, hg2⟩ := hguard
            have hm1 : m ≤ 1000000000 * 10 ^ k := Nat.le_of_not_lt hg1
            constructor
            · rw [ratOf_abs]
              rw [div_le_iff₀ (by positivity : (0 : ℚ) < 10 ^ k)]
              exact_mod_cast hm1
            · by_cases hm0 : m = 0
              · left
                rw [hm0, ratOf_zero]
              · right
                have hk : 10 ^ k ≤ m * 1000000 := by
                  rcases Nat.lt_or_ge (m * 1000000) (10 ^ k) with hlt | hge
                  · exact absurd hm0 (by simpa using hg2 hlt)
                  · exact hge
                rw [ratOf_abs]
                rw [div_le_div_iff₀ (by norm_num : (0 : ℚ) < 1000000)
                  (by positivity : (0 : ℚ) < 10 ^ k), one_mul]
                exact_mod_cast hk

end FinTrack

namespace FinTrack

/-- Claim C8 counterexample: `parse_amount_with_currency` has no magnitude
bound — the token `"2000000000"` parses successfully to `2·10⁹`, which lies
outside the sane bound that `_parse_amount` enforces (and `_parse_amount`
indeed rejects it). -/
theorem c8_counterexample :
    DefensiveParser.parse_amount_with_currency "2000000000" = some (2000000000, "USD") ∧
    (1000000000 : ℚ) < 2000000000 ∧
    TP.parse_amount "2000000000" = (none, "USD") := by
  have h : DefensiveParser.parse_amount_with_currency "2000000000"
      = some (ratOf false 2000000000 0, "USD") := rfl
  have hv : ratOf false 2000000000 0 = (2000000000 : ℚ) := by norm_num [ratOf]
  exact ⟨by rw [h, hv], by norm_num, rfl⟩

/-- Claim C8 (amended): both parsers fail whenever no digits remain after
stripping every character except digits, separators and sign markers;
`_parse_amount` (alone) additionally rejects magnitudes outside the sane
bound, every amount it returns satisfying `|a| ≤ 10⁹` and
`a = 0 ∨ 10⁻⁶ ≤ |a|`; sign is preserved, as on `"-45.00"` and `"+45.00"`
(`parse_amount_with_currency` enforces no bound — see the counterexample). -/
theorem c8_amended :
    (∀ s : String, (cleanAmountChars s).all (fun c => !c.isDigit) = true →
      DefensiveParser.parse_amount_with_currency s = none ∧
      (TP.parse_amount s).1 = none) ∧
    (∀ (s : String) (a : ℚ) (c : String), TP.parse_amount s = (some a, c) →
      |a| ≤ 1000000000 ∧ (a = 0 ∨ 1 / 1000000 ≤ |a|)) ∧
    TP.parse_amount "-45.00" = (some (-45), "USD") ∧
    TP.parse_amount "+45.00" = (some 45, "USD") ∧
    DefensiveParser.parse_amount_with_currency "-45.00" = some (-45, "USD") := by
  refine ⟨parse_amount_noDigit, tp_parse_bound, ?_, ?_, ?_⟩
  · have h : TP.parse_amount "-45.00" = (some (ratOf true 4500 2), "USD") := rfl
    have hv : ratOf true 4500 2 = (-45 : ℚ) := by norm_num [ratOf]
    rw [h, hv]
  · have h : TP.parse_amount "+45.00" = (some (ratOf false 4500 2), "USD") := rfl
    have hv : ratOf false 4500 2 = (45 : ℚ) := by norm_num [ratOf]
    rw [h, hv]
  · have h : DefensiveParser.parse_amount_with_currency "-45.00"
        = some (ratOf true 4500 2, "USD") := rfl
    have hv : ratOf true 4500 2 = (-45 : ℚ) := by norm_num [ratOf]
    rw [h, hv]

/-- Claim C8 witness: the amended theorem applied to the digit-free token
`"$-+.,"` (both parsers fail) and to `"+45.00"` (the returned amount obeys the
bound). -/
theorem c8_witness :
    DefensiveParser.parse_amount_with_currency "$-+.," = none ∧
    |(45 : ℚ)| ≤ 1000000000 := by
  constructor
  · exact (c8_amended.1 "$-+.," (by decide)).1
  · refine (c8_amended.2.1 "+45.00" 45 "USD" ?_).1
    have h : TP.parse_amount "+45.00" = (some (ratOf false 4500 2), "USD") := rfl
    have hv : ratOf false 4500 2 = (45 : ℚ) := by norm_num [ratOf]
    rw [h, hv]

end FinTrack

namespace FinTrack

/-- Claim C7 (amended): `validate_csv_structure` accepts a table exactly when
it is non-empty, has at least three columns, and either some column has a
native numeric dtype or *some cell anywhere* contains a digit — an
any-cell test, not the majority-per-column test the claim states (see the
counterexample). -/
theorem c7_amended (t : Sanitizer.Table) :
    RobustCSV.validate_csv_structure t = true ↔
      (Sanitizer.nrows t ≠ 0 ∧ 3 ≤ t.cols.length ∧
        (Sanitizer.intColCount t ≠ 0 ∨ RobustCSV.anyDigitCell t = true)) := by
  unfold RobustCSV.validate_csv_structure
  by_cases h1 : Sanitizer.nrows t = 0
  · simp [h1]
  · by_cases h2 : t.cols.length = 0
    · simp [h1, h2]
    · by_cases h3 : t.cols.length < 3
      · simp [h1, h2, h3]
      · by_cases h4 : Sanitizer.intColCount t ≠ 0
        · simp [h1, h2, h3, h4]
          omega
        · simp [h1, h2, h3, h4]
          omega

end FinTrack

namespace FinTrack.DefensiveParser

open FinTrack

/-- A successful standard parse carries confidence `0.9` on both the outcome
and the transaction. -/
theorem standard_parsing_success (row : Row)
    (h : (standard_parsing row).success = true) :
    (standard_parsing row).strategy_used = "standard_parsing" ∧
    (standard_parsing row).confidence = 9 / 10 ∧
    (standard_parsing row).transaction.map Txn.confidence_score = some (9 / 10) := by
  revert h
  simp only [standard_parsing]
  split
  · intro h
    simp [failRes] at h
  · split
    · intro h
      simp [failRes] at h
    · split
      · intro h
        simp [failRes] at h
      · intro _
        exact ⟨rfl, rfl, rfl⟩

/-- A successful fuzzy parse carries confidence `0.7` on both the outcome and
the transaction. -/
theorem fuzzy_success (row : Row)
    (h : (fuzzy_column_matching row).success = true) :
    (fuzzy_column_matching row).strategy_used = "fuzzy_column_matching" ∧
    (fuzzy_column_matching row).confidence = 7 / 10 ∧
    (fuzzy_column_matching row).transaction.map Txn.confidence_score = some (7 / 10) := by
  revert h
  simp only [fuzzy_column_matching]
  split
  · split
    · intro h
      simp [failRes] at h
    · split
      · intro h
        simp [failRes] at h
      · intro _
        exact ⟨rfl, rfl, rfl⟩
  · intro h
    simp [failRes] at h

/-- A successful pattern-based parse carries confidence `0.6` on both the
outcome and the transaction. -/
theorem pattern_success (row : Row)
    (h : (pattern_based_extraction row).success = true) :
    (pattern_based_extraction row).strategy_used = "pattern_based_extraction" ∧
    (pattern_based_extraction row).confidence = 6 / 10 ∧
    (pattern_based_extraction row).transaction.map Txn.confidence_score
      = some (6 / 10) := by
  revert h
  simp only [pattern_based_extraction]
  split
  · intro h
    simp [failRes] at h
  · split
    · intro h
      simp [failRes] at h
    · split
      · intro h
        simp [failRes] at h
      · split
        · intro h
          simp [failRes] at h
        · intro _
          exact ⟨rfl, rfl, rfl⟩

/-- A successful manual parse carries confidence `0.5` on both the outcome and
the transaction. -/
theorem manual_success (row : Row)
    (h : (manual_field_detection row).success = true) :
    (manual_field_detection row).strategy_used = "manual_field_detection" ∧
    (manual_field_detection row).confidence = 5 / 10 ∧
    (manual_field_detection row).transaction.map Txn.confidence_score
      = some (5 / 10) := by
  revert h
  simp only [manual_field_detection]
  split
  · split
    · intro _
      exact ⟨rfl, rfl, rfl⟩
    · intro h
      simp [failRes] at h
  · intro h
    simp [failRes] at h

/-- A successful emergency parse carries confidence `0.2` on both the outcome
and the transaction. -/
theorem emergency_success (today : PDate) (row : Row)
    (h : (emergency_fallback today row).success = true) :
    (emergency_fallback today row).strategy_used = "emergency_fallback" ∧
    (emergency_fallback today row).confidence = 2 / 10 ∧
    (emergency_fallback today row).transaction.map Txn.confidence_score
      = some (2 / 10) := by
  revert h
  simp only [emergency_fallback]
  split
  · intro h
    simp [failRes] at h
  · split
    · intro h
      simp [failRes] at h
    · intro _
      exact ⟨rfl, rfl, rfl⟩

end FinTrack.DefensiveParser

namespace FinTrack

open FinTrack.DefensiveParser FinTrack.Examples

/-- Claim C4: the row ladder is total and never raises — for every row and
index it returns either a Success carrying a transaction (all seven fields are
present by construction of the transaction record) or, when all five
strategies have failed, the `all_failed` Failure with confidence `0.0` and its
reason, rather than an exception propagating. -/
theorem c4_total_ladder (today : PDate) (row : Row) (idx : Option Nat) :
    (∃ t, (parse_transaction_row today row idx).success = true ∧
      (parse_transaction_row today row idx).transaction = some t) ∨
    ((parse_transaction_row today row idx).success = false ∧
      (parse_transaction_row today row idx).transaction = none ∧
      (parse_transaction_row today row idx).strategy_used = "all_failed" ∧
      (parse_transaction_row today row idx).confidence = 0 ∧
      (parse_transaction_row today row idx).error_message
        = some "All parsing strategies failed") := by
  simp only [parse_transaction_row]
  split
  · rename_i h1
    left
    obtain ⟨t, ht, _⟩ := Option.map_eq_some'.mp (standard_parsing_success row h1).2.2
    exact ⟨t, h1, ht⟩
  · split
    · rename_i h2
      left
      obtain ⟨t, ht, _⟩ := Option.map_eq_some'.mp (fuzzy_success row h2).2.2
      exact ⟨t, h2, ht⟩
    · split
      · rename_i h3
        left
        obtain ⟨t, ht, _⟩ := Option.map_eq_some'.mp (pattern_success row h3).2.2
        exact ⟨t, h3, ht⟩
      · split
        · rename_i h4
          left
          obtain ⟨t, ht, _⟩ := Option.map_eq_some'.mp (manual_success row h4).2.2
          exact ⟨t, h4, ht⟩
        · split
          · rename_i h5
            left
            obtain ⟨t, ht, _⟩ := Option.map_eq_some'.mp (emergency_success today row h5).2.2
            exact ⟨t, h5, ht⟩
          · right
            exact ⟨rfl, rfl, rfl, rfl, rfl⟩

/-- Claim C3: whichever strategy succeeds, the outcome's confidence and the
emitted transaction's `confidence_score` are exactly `0.9`, `0.7`, `0.6`,
`0.5`, `0.2` for the standard, fuzzy, pattern, manual and emergency strategies
respectively, and the ladder's result carries the succeeding strategy's
value. -/
theorem c3_confidence (today : PDate) (row : Row) (idx : Option Nat) :
    ((standard_parsing row).success = true →
      (standard_parsing row).confidence = 9 / 10 ∧
      (standard_parsing row).transaction.map Txn.confidence_score = some (9 / 10)) ∧
    ((fuzzy_column_matching row).success = true →
      (fuzzy_column_matching row).confidence = 7 / 10 ∧
      (fuzzy_column_matching row).transaction.map Txn.confidence_score = some (7 / 10)) ∧
    ((pattern_based_extraction row).success = true →
      (pattern_based_extraction row).confidence = 6 / 10 ∧
      (pattern_based_extraction row).transaction.map Txn.confidence_score = some (6 / 10)) ∧
    ((manual_field_detection row).success = true →
      (manual_field_detection row).confidence = 5 / 10 ∧
      (manual_field_detection row).transaction.map Txn.confidence_score = some (5 / 10)) ∧
    ((emergency_fallback today row).success = true →
      (emergency_fallback today row).confidence = 2 / 10 ∧
      (emergency_fallback today row).transaction.map Txn.confidence_score = some (2 / 10)) ∧
    ((parse_transaction_row today row idx).success = true →
      ((parse_transaction_row today row idx).strategy_used = "standard_parsing" →
        (parse_transaction_row today row idx).confidence = 9 / 10 ∧
        (parse_transaction_row today row idx).transaction.map Txn.confidence_score
          = some (9 / 10)) ∧
      ((parse_transaction_row today row idx).strategy_used = "fuzzy_column_matching" →
        (parse_transaction_row today row idx).confidence = 7 / 10 ∧
        (parse_transaction_row today row idx).transaction.map Txn.confidence_score
          = some (7 / 10)) ∧
      ((parse_transaction_row today row idx).strategy_used = "pattern_based_extraction" →
        (parse_transaction_row today row idx).confidence = 6 / 10 ∧
        (parse_transaction_row today row idx).transaction.map Txn.confidence_score
          = some (6 / 10)) ∧
      ((parse_transaction_row today row idx).strategy_used = "manual_field_detection" →
        (parse_transaction_row today row idx).confidence = 5 / 10 ∧
        (parse_transaction_row today row idx).transaction.map Txn.confidence_score
          = some (5 / 10)) ∧
      ((parse_transaction_row today row idx).strategy_used = "emergency_fallback" →
        (parse_transaction_row today row idx).confidence = 2 / 10 ∧
        (parse_transaction_row today row idx).transaction.map Txn.confidence_score
          = some (2 / 10))) := by
  refine ⟨fun h => ((standard_parsing_success row h).2.1).symm ▸
      ⟨rfl, (standard_parsing_success row h).2.2⟩,
    fun h => ⟨(fuzzy_success row h).2.1, (fuzzy_success row h).2.2⟩,
    fun h => ⟨(pattern_success row h).2.1, (pattern_success row h).2.2⟩,
    fun h => ⟨(manual_success row h).2.1, (manual_success row h).2.2⟩,
    fun h => ⟨(emergency_success today row h).2.1, (emergency_success today row h).2.2⟩,
    ?_⟩
  simp only [parse_transaction_row]
  split
  · rename_i h1
    obtain ⟨hn, hc, hm⟩ := standard_parsing_success row h1
    intro _
    refine ⟨fun _ => ⟨hc, hm⟩, ?_, ?_, ?_, ?_⟩
    all_goals intro hname
    all_goals rw [hn] at hname
    all_goals exact absurd hname (by decide)
  · split
    · rename_i h2
      obtain ⟨hn, hc, hm⟩ := fuzzy_success row h2
      intro _
      refine ⟨?_, fun _ => ⟨hc, hm⟩, ?_, ?_, ?_⟩
      all_goals intro hname
      all_goals rw [hn] at hname
      all_goals exact absurd hname (by decide)
    · split
      · rename_i h3
        obtain ⟨hn, hc, hm⟩ := pattern_success row h3
        intro _
        refine ⟨?_, ?_, fun _ => ⟨hc, hm⟩, ?_, ?_⟩
        all_goals intro hname
        all_goals rw [hn] at hname
        all_goals exact absurd hname (by decide)
      · split
        · rename_i h4
          obtain ⟨hn, hc, hm⟩ := manual_success row h4
          intro _
          refine ⟨?_, ?_, ?_, fun _ => ⟨hc, hm⟩, ?_⟩
          all_goals intro hname
          all_goals rw [hn] at hname
          all_goals exact absurd hname (by decide)
        · split
          · rename_i h5
            obtain ⟨hn, hc, hm⟩ := emergency_success today row h5
            intro _
            refine ⟨?_, ?_, ?_, ?_, fun _ => ⟨hc, hm⟩⟩
            all_goals intro hname
            all_goals rw [hn] at hname
            all_goals exact absurd hname (by decide)
          · intro h
            simp [all_failed] at h

end FinTrack

namespace FinTrack

open FinTrack.DefensiveParser FinTrack.Examples

/-- Claim C3 witness: the confidence theorem applied to five concrete rows,
one per succeeding strategy, and to the ladder on the standard row. -/
theorem c3_confidence_witness :
    (standard_parsing rowStd).confidence = 9 / 10 ∧
    (fuzzy_column_matching rowFuzzy).confidence = 7 / 10 ∧
    (pattern_based_extraction rowPat).confidence = 6 / 10 ∧
    (manual_field_detection rowMan).confidence = 5 / 10 ∧
    (emergency_fallback ⟨2026, 1, 1⟩ rowEm).confidence = 2 / 10 ∧
    (parse_transaction_row ⟨2026, 1, 1⟩ rowStd none).transaction.map Txn.confidence_score
      = some (9 / 10) := by
  refine ⟨?_, ?_, ?_, ?_, ?_, ?_⟩
  · exact ((c3_confidence ⟨2026, 1, 1⟩ rowStd none).1 rfl).1
  · exact ((c3_confidence ⟨2026, 1, 1⟩ rowFuzzy none).2.1 rfl).1
  · exact ((c3_confidence ⟨2026, 1, 1⟩ rowPat none).2.2.1 rfl).1
  · exact ((c3_confidence ⟨2026, 1, 1⟩ rowMan none).2.2.2.1 rfl).1
  · exact ((c3_confidence ⟨2026, 1, 1⟩ rowEm none).2.2.2.2.1 rfl).1
  · exact (((c3_confidence ⟨2026, 1, 1⟩ rowStd none).2.2.2.2.2 rfl).1 rfl).2

end FinTrack

namespace FinTrack

/-- After a dict assignment, the assigned key is present. -/
theorem hasKey_upsert_self (l : List (String × PyVal)) (k : String) (v : PyVal) :
    hasKey (upsert l k v) k = true := by
  unfold upsert
  split
  · rename_i h
    rw [hasKey, List.any_eq_true]
    rw [List.any_eq_true] at h
    obtain ⟨p, hp, hpk⟩ := h
    refine ⟨(k, v), List.mem_map.mpr ⟨p, hp, ?_⟩, by simp⟩
    rw [if_pos (of_decide_eq_true hpk)]
  · rw [hasKey, List.any_eq_true]
    exact ⟨(k, v), List.mem_append_right _ (List.mem_singleton_self _), by simp⟩

/-- A dict assignment never removes a key. -/
theorem hasKey_upsert_mono (l : List (String × PyVal)) (k k' : String) (v : PyVal)
    (h : hasKey l k' = true) : hasKey (upsert l k v) k' = true := by
  unfold upsert
  split
  · rw [hasKey, List.any_eq_true] at h ⊢
    obtain ⟨p, hp, hpk⟩ := h
    by_cases hk : p.1 = k
    · refine ⟨(k, v), List.mem_map.mpr ⟨p, hp, by rw [if_pos hk]⟩, ?_⟩
      have hkk : k = k' := hk ▸ of_decide_eq_true hpk
      simp [hkk]
    · exact ⟨p, List.mem_map.mpr ⟨p, hp, by rw [if_neg hk]⟩, hpk⟩
  · rw [hasKey, List.any_eq_true] at h ⊢
    obtain ⟨p, hp, hpk⟩ := h
    exact ⟨p, List.mem_append_left _ hp, hpk⟩

/-- Updating a present key makes its value the first find. -/
theorem find?_map_update_self (l : List (String × PyVal)) (k : String) (v : PyVal)
    (h : l.any (fun p => p.1 = k) = true) :
    (l.map (fun p => if p.1 = k then (k, v) else p)).find? (fun p => p.1 = k)
      = some (k, v) := by
  induction l with
  | nil => simp at h
  | cons p rest ih =>
    by_cases hk : p.1 = k
    · rw [List.map_cons, if_pos hk]
      rw [List.find?_cons_of_pos _ (by simp)]
    · rw [List.map_cons, if_neg hk]
      rw [List.find?_cons_of_neg _ (by simpa using hk)]
      apply ih
      rw [List.any_cons] at h
      simpa [hk] using h

/-- Appending a binding for an absent key makes it the find. -/
theorem find?_append_single (l : List (String × PyVal)) (k : String) (v : PyVal)
    (h : l.any (fun p => p.1 = k) = false) :
    (l ++ [(k, v)]).find? (fun p => p.1 = k) = some (k, v) := by
  induction l with
  | nil =>
    rw [List.nil_append]
    rw [List.find?_cons_of_pos _ (by simp)]
  | cons p rest ih =>
    rw [List.any_cons, Bool.or_eq_false_iff] at h
    rw [List.cons_append]
    rw [List.find?_cons_of_neg _ (by simpa using h.1)]
    exact ih h.2

/-- Looking up the assigned key returns the assigned value. -/
theorem getVal_upsert_self (l : List (String × PyVal)) (k : String) (v d : PyVal) :
    getVal (upsert l k v) k d = v := by
  unfold upsert
  split
  · rename_i h
    rw [getVal, find?_map_update_self l k v h]
  · rename_i h
    rw [getVal, find?_append_single l k v (by simp only [Bool.not_eq_true] at h; exact h)]

/-- Updating key `k` leaves the find for a different key unchanged. -/
theorem find?_map_update_ne (l : List (String × PyVal)) (k k' : String) (v : PyVal)
    (hne : k' ≠ k) :
    (l.map (fun p => if p.1 = k then (k, v) else p)).find? (fun p => p.1 = k')
      = l.find? (fun p => p.1 = k') := by
  induction l with
  | nil => rfl
  | cons p rest ih =>
    by_cases hk' : p.1 = k'
    · have hk : ¬p.1 = k := fun hk => hne (hk'.symm.trans hk)
      rw [List.map_cons, if_neg hk]
      rw [List.find?_cons_of_pos _ (by simpa using hk'),
        List.find?_cons_of_pos _ (by simpa using hk')]
    · rw [List.map_cons]
      by_cases hk : p.1 = k
      · rw [if_pos hk]
        rw [List.find?_cons_of_neg _ (by simpa using Ne.symm hne),
          List.find?_cons_of_neg _ (by simpa using hk')]
        exact ih
      · rw [if_neg hk]
        rw [List.find?_cons_of_neg _ (by simpa using hk'),
          List.find?_cons_of_neg _ (by simpa using hk')]
        exact ih

/-- Looking up a different key after a dict assignment is unchanged. -/
theorem getVal_upsert_ne (l : List (String × PyVal)) (k k' : String) (v d : PyVal)
    (hne : k' ≠ k) : getVal (upsert l k v) k' d = getVal l k' d := by
  unfold upsert
  split
  · rw [getVal, getVal, find?_map_update_ne l k k' v hne]
  · rw [getVal, getVal]
    have hfind : (l ++ [(k, v)]).find? (fun p => p.1 = k')
        = ((l.find? (fun p => p.1 = k')).or ([(k, v)].find? (fun p => p.1 = k'))) :=
      List.find?_append
    rw [hfind]
    have h1 : ([(k, v)].find? (fun p => p.1 = k')) = none := by
      rw [List.find?_cons_of_neg _ (by simpa using Ne.symm hne)]
      rfl
    rw [h1]
    cases l.find? (fun p => p.1 = k') with
    | none => rfl
    | some p => rfl

end FinTrack

namespace FinTrack

/-- `fillDefaults` guarantees the four default keys and keeps existing keys. -/
theorem fillDefaults_hasKey (u : TP.VTxn) (aneg : Bool) (k' : String)
    (h : hasKey u k' = true ∨ k' = "currency" ∨ k' = "confidence_score" ∨
      k' = "type" ∨ k' = "category") :
    hasKey (TP.fillDefaults u aneg) k' = true := by
  have step : ∀ (w : TP.VTxn) (k0 : String) (v0 : PyVal),
      hasKey w k' = true ∨ k' = k0 →
      hasKey (if hasKey w k0 = true then w else upsert w k0 v0) k' = true := by
    intro w k0 v0 hw
    rcases hw with hw | hw
    · split
      · exact hw
      · exact hasKey_upsert_mono w k0 k' v0 hw
    · subst hw
      split
      · assumption
      · exact hasKey_upsert_self w k' v0
  have mono : ∀ (w : TP.VTxn) (k0 : String) (v0 : PyVal),
      hasKey w k' = true →
      hasKey (if hasKey w k0 = true then w else upsert w k0 v0) k' = true :=
    fun w k0 v0 hw => step w k0 v0 (Or.inl hw)
  unfold TP.fillDefaults
  rcases h with h | h | h | h | h
  · exact step _ _ _ (Or.inl (mono _ _ _ (mono _ _ _ (mono _ _ _ h))))
  · exact step _ _ _ (Or.inl (mono _ _ _ (mono _ _ _ (step _ _ _ (Or.inr h)))))
  · exact step _ _ _ (Or.inl (mono _ _ _ (step _ _ _ (Or.inr h))))
  · exact step _ _ _ (Or.inl (step _ _ _ (Or.inr h)))
  · exact step _ _ _ (Or.inr h)

/-- `fillDefaults` does not change the value of keys outside the four
defaults. -/
theorem fillDefaults_getVal_ne (u : TP.VTxn) (aneg : Bool) (k' : String) (d : PyVal)
    (h1 : k' ≠ "currency") (h2 : k' ≠ "confidence_score") (h3 : k' ≠ "type")
    (h4 : k' ≠ "category") :
    getVal (TP.fillDefaults u aneg) k' d = getVal u k' d := by
  have step : ∀ (w : TP.VTxn) (k0 : String) (v0 : PyVal), k' ≠ k0 →
      getVal (if hasKey w k0 = true then w else upsert w k0 v0) k' d
        = getVal w k' d := by
    intro w k0 v0 hne
    split
    · rfl
    · exact getVal_upsert_ne w k0 k' v0 d hne
  unfold TP.fillDefaults
  rw [step _ _ _ h4, step _ _ _ h3, step _ _ _ h2, step _ _ _ h1]

end FinTrack

namespace FinTrack

/-- Every transaction the per-row validation accepts carries all seven fields,
a numeric amount, and a cleaned non-empty description. -/
theorem validateOne_ok (t v : TP.VTxn) (h : TP.validateOne t = Except.ok v) :
    (hasKey v "date" = true ∧ hasKey v "description" = true ∧
      hasKey v "amount" = true ∧ hasKey v "currency" = true ∧
      hasKey v "confidence_score" = true ∧ hasKey v "type" = true ∧
      hasKey v "category" = true) ∧
    TP.isNumV (getVal v "amount" .vNone) = true ∧
    (∃ s, getVal v "description" .vNone = .vStr s ∧ s ≠ "" ∧
      lowerStr s ≠ "nan" ∧ lowerStr s ≠ "null") := by
  revert h
  simp only [TP.validateOne]
  split
  · intro h
    exact absurd h (by simp)
  · rename_i hmiss
    split
    · intro h
      exact absurd h (by simp)
    · rename_i amountV hAv
      split
      · intro h
        exact absurd h (by simp)
      · rename_i pr av aneg heq
        split
        · intro h
          exact absurd h (by simp)
        · rename_i hds
          intro h
          injection h with hv
          subst hv
          have hmiss0 : (["date", "description", "amount"].filter
              (fun f => !hasKey t f || !truthy (getVal t f .vNone))) = [] := by
            simp only [Bool.not_eq_true] at hmiss
            simpa using hmiss
          have hfield : ∀ f, f ∈ ["date", "description", "amount"] →
              hasKey t f = true := by
            intro f hf
            have hp := List.filter_eq_nil_iff.mp hmiss0 f hf
            simp only [Bool.or_eq_true, Bool.not_eq_true', not_or] at hp
            simpa using hp.1
          have hdesc3 := by
            simp only [Bool.or_eq_true, decide_eq_true_eq, not_or] at hds
            exact hds
          refine ⟨⟨?_, ?_, ?_, ?_, ?_, ?_, ?_⟩, ?_, ?_⟩
          · exact fillDefaults_hasKey _ _ _ (Or.inl (hasKey_upsert_mono _ _ _ _
              (hasKey_upsert_mono _ _ _ _ (hfield "date" (by simp)))))
          · exact fillDefaults_hasKey _ _ _ (Or.inl (hasKey_upsert_self _ _ _))
          · exact fillDefaults_hasKey _ _ _ (Or.inl (hasKey_upsert_mono _ _ _ _
              (hasKey_upsert_self _ _ _)))
          · exact fillDefaults_hasKey _ _ _ (Or.inr (Or.inl rfl))
          · exact fillDefaults_hasKey _ _ _ (Or.inr (Or.inr (Or.inl rfl)))
          · exact fillDefaults_hasKey _ _ _ (Or.inr (Or.inr (Or.inr (Or.inl rfl))))
          · exact fillDefaults_hasKey _ _ _ (Or.inr (Or.inr (Or.inr (Or.inr rfl))))
          · have hval : getVal (TP.fillDefaults
                (upsert (upsert t "amount" av) "description"
                  (.vStr (pyStrip (pyStr (getVal (upsert t "amount" av)
                    "description" .vNone))))) aneg) "amount" .vNone = av := by
              rw [fillDefaults_getVal_ne _ _ _ _ (by decide) (by decide) (by decide)
                (by decide)]
              rw [getVal_upsert_ne _ _ _ _ _ (by decide)]
              exact getVal_upsert_self t "amount" av .vNone
            rw [hval]
            cases hA : getVal t "amount" PyVal.vNone with
            | vInt n =>
              simp only [hA] at heq
              injection heq with h1
              rw [Prod.mk.injEq] at h1
              rw [← h1.1]
              rfl
            | vFloat q =>
              simp only [hA] at heq
              injection heq with h1
              rw [Prod.mk.injEq] at h1
              rw [← h1.1]
              rfl
            | vStr s =>
              simp only [hA] at heq
              revert heq
              cases hps : pyFloatStr (pyStr (PyVal.vStr s)) with
              | none =>
                intro heq
                simp [hps] at heq
              | some nm =>
                obtain ⟨n0, m0, k0⟩ := nm
                intro heq
                simp only [hps] at heq
                injection heq with h1
                rw [Prod.mk.injEq] at h1
                rw [← h1.1]
                rfl
            | vNone => exact absurd hA hAv
          · refine ⟨pyStrip (pyStr (getVal (upsert t "amount" av)
                "description" .vNone)), ?_, hdesc3.1.1, hdesc3.1.2, hdesc3.2⟩
            rw [fillDefaults_getVal_ne _ _ _ _ (by decide) (by decide) (by decide)
              (by decide)]
            exact getVal_upsert_self _ _ _ _

end FinTrack

namespace FinTrack

/-- Every transaction in the surviving list of the validator's fold was
accepted by the per-row validation. -/
theorem validatePass_fold_mem (v : TP.VTxn) :
    ∀ (l : List (Nat × TP.VTxn)) (acc : List TP.VTxn × List String),
      v ∈ (l.foldl (fun acc p =>
        match TP.validateOne p.2 with
        | .ok u => (acc.1 ++ [u], acc.2)
        | .error m => (acc.1, acc.2 ++ [TP.errorLine p.1 m])) acc).1 →
      v ∈ acc.1 ∨ ∃ t, TP.validateOne t = Except.ok v := by
  intro l
  induction l with
  | nil =>
    intro acc h
    exact Or.inl h
  | cons p rest ih =>
    intro acc h
    rw [List.foldl_cons] at h
    rcases hvo : TP.validateOne p.2 with m | u
    · simp only [hvo] at h
      rcases ih (acc.1, acc.2 ++ [TP.errorLine p.1 m]) h with h1 | h1
      · exact Or.inl h1
      · exact Or.inr h1
    · simp only [hvo] at h
      rcases ih (acc.1 ++ [u], acc.2) h with hmem | hex
      · rcases List.mem_append.mp hmem with h1 | h1
        · exact Or.inl h1
        · exact Or.inr ⟨p.2, by rw [hvo]; exact congrArg _ (List.mem_singleton.mp h1).symm⟩
      · exact Or.inr hex

/-- Claim C6 (amended): `_validate_transactions` raises `ValidationError`
exactly when the per-row validation rejects every transaction (with the claimed
invariants only partially enforced: amounts must be convertible *and truthy* —
the numeric amount `0` is rejected — and dates are only checked for presence,
never parsed); otherwise it returns just the surviving sequence, in which
every transaction has all seven fields, a numeric amount, and a cleaned
non-empty description, the four defaults having been filled when absent.  The
rejected-row count is logged, not returned. -/
theorem c6_amended (ts : List TP.VTxn) :
    ((∃ msg, TP.validateTransactions ts = Except.error msg) ↔
      (TP.validatePass ts).1 = []) ∧
    (∀ vs, TP.validateTransactions ts = Except.ok vs →
      vs = (TP.validatePass ts).1 ∧
      ∀ v ∈ vs,
        (hasKey v "date" = true ∧ hasKey v "description" = true ∧
          hasKey v "amount" = true ∧ hasKey v "currency" = true ∧
          hasKey v "confidence_score" = true ∧ hasKey v "type" = true ∧
          hasKey v "category" = true) ∧
        TP.isNumV (getVal v "amount" .vNone) = true ∧
        (∃ s, getVal v "description" .vNone = .vStr s ∧ s ≠ "" ∧
          lowerStr s ≠ "nan" ∧ lowerStr s ≠ "null")) := by
  constructor
  · constructor
    · rintro ⟨msg, hmsg⟩
      revert hmsg
      simp only [TP.validateTransactions]
      split
      · rename_i hemp
        intro _
        exact List.isEmpty_iff.mp (by simpa using hemp)
      · intro h
        exact absurd h (by simp)
    · intro hnil
      simp only [TP.validateTransactions]
      rw [if_pos (by simp [hnil] : ((TP.validatePass ts).1.isEmpty = true))]
      exact ⟨_, rfl⟩
  · intro vs hok
    have hvs : vs = (TP.validatePass ts).1 := by
      revert hok
      simp only [TP.validateTransactions]
      split
      · intro h
        exact absurd h (by simp)
      · intro h
        injection h with h1
        exact h1.symm
    refine ⟨hvs, ?_⟩
    intro v hv
    rw [hvs] at hv
    have hsrc := validatePass_fold_mem v (enumF 0 ts) ([], []) hv
    rcases hsrc with hin | ⟨t, ht⟩
    · exact absurd hin (List.not_mem_nil v)
    · exact validateOne_ok t v ht

end FinTrack

namespace FinTrack

/-- Claim C6 counterexample: a transaction with the perfectly numeric amount
`0`, a non-empty description and a parseable date is nevertheless rejected by
the validator — Python truthiness makes a zero amount a "missing field" — so
the validator does not drop *exactly* the transactions violating the
data-model invariants. -/
theorem c6_counterexample :
    TP.validatePass [Examples.txBad] = ([], ["Transaction 1: Missing fields"]) ∧
    getVal Examples.txBad "amount" .vNone = .vInt 0 ∧
    getVal Examples.txBad "description" .vNone = .vStr "Groceries" ∧
    ("Groceries" : String) ≠ "" ∧
    DefensiveParser.parse_date (getVal Examples.txBad "date" .vNone)
      = some ⟨2024, 1, 1⟩ := by
  exact ⟨rfl, rfl, rfl, by decide, rfl⟩

/-- Claim C6 witness: the amended theorem applied to a rejected-only batch
(the error is raised) and to an accepted batch (the survivor carries the
filled defaults and a numeric amount). -/
theorem c6_amended_witness :
    (∃ msg, TP.validateTransactions [Examples.txBad] = Except.error msg) ∧
    (∀ v ∈ Examples.VS0, hasKey v "currency" = true ∧
      TP.isNumV (getVal v "amount" .vNone) = true) := by
  constructor
  · exact (c6_amended [Examples.txBad]).1.mpr rfl
  · intro v hv
    have h := ((c6_amended [Examples.txGood]).2 Examples.VS0 rfl).2 v hv
    exact ⟨h.1.2.2.2.1, h.2.1⟩

end FinTrack

namespace FinTrack

open FinTrack.Sanitizer

/-- The shifted-row step never changes the table (its realignment is the
identity). -/
theorem fix_shifted_columns_id (t : Table) : fix_shifted_columns t = t := by
  unfold fix_shifted_columns
  split
  · rfl
  · rfl

/-- Filtering an index-annotated list on the payload keeps the plain filter's
length. -/
theorem enumF_filter_length {α : Type} (f : α → Bool) :
    ∀ (xs : List α) (n : Nat),
      ((enumF n xs).filter (fun p => f p.2)).length = (xs.filter f).length := by
  intro xs
  induction xs with
  | nil => intro n; rfl
  | cons x rest ih =>
    intro n
    rw [enumF]
    by_cases hf : f x = true
    · rw [List.filter_cons_of_pos (by simpa using hf), List.filter_cons_of_pos hf]
      simp [ih]
    · rw [List.filter_cons_of_neg (by simpa using hf),
        List.filter_cons_of_neg (by simpa using hf)]
      exact ih (n + 1)

/-- With at most one numeric column the split-currency merge does nothing. -/
theorem merge_id (t : Table) (h : intColCount t ≤ 1) :
    merge_split_currency_columns t = t := by
  have hlen : (((enumF 0 t.cols).filter (fun p => isIntCol p.2)).map
      (fun p => p.1)).length ≤ 1 := by
    rw [List.length_map, enumF_filter_length]
    exact h
  simp only [merge_split_currency_columns]
  rcases hl : ((enumF 0 t.cols).filter (fun p => isIntCol p.2)).map (fun p => p.1)
    with _ | ⟨a, _ | ⟨b, rest⟩⟩
  · simp [hl]
  · simp [hl]
  · rw [hl] at hlen
    simp at hlen

/-- Unicode normalisation of a single cell string is the identity. -/
theorem normalize_unicode_string_id (s : String) : normalize_unicode_string s = s := by
  unfold normalize_unicode_string
  split
  · rfl
  · rfl

/-- Normalising a column of clean cells is the identity. -/
theorem strs_map_norm_id (xs : List (Option String))
    (h : xs.all cellClean = true) :
    xs.map (fun c => some (normalize_unicode_string (astypeStrCell c))) = xs := by
  refine (List.map_congr_left ?_).trans (List.map_id _)
  intro c hc
  have hcc := List.all_eq_true.mp h c hc
  cases c with
  | none => simp [cellClean] at hcc
  | some s => simp [astypeStrCell, normalize_unicode_string_id]

/-- Cleaning a column of clean cells is the identity. -/
theorem strs_map_clean_id (xs : List (Option String))
    (h : xs.all cellClean = true) : xs.map cleanCell = xs := by
  refine (List.map_congr_left ?_).trans (List.map_id _)
  intro c hc
  have hcc := List.all_eq_true.mp h c hc
  cases c with
  | none => simp [cellClean] at hcc
  | some s => simpa [cellClean] using hcc

/-- Unicode normalisation of a clean table is the identity. -/
theorem normalize_id (t : Table) (h : tableCellsClean t = true) :
    normalize_unicode_symbols t = t := by
  cases t with
  | mk cols =>
    simp only [normalize_unicode_symbols]
    congr 1
    refine (List.map_congr_left ?_).trans (List.map_id _)
    intro p hp
    have hcol := List.all_eq_true.mp h p hp
    obtain ⟨name, d⟩ := p
    cases d with
    | ints xs => rfl
    | strs xs =>
      show (name, ColData.strs (xs.map _)) = (name, ColData.strs xs)
      rw [strs_map_norm_id xs (by simpa using hcol)]

/-- Whitespace/quote cleanup of a clean table is the identity. -/
theorem clean_id (t : Table) (h : tableCellsClean t = true) :
    clean_whitespace_and_quotes t = t := by
  cases t with
  | mk cols =>
    simp only [clean_whitespace_and_quotes]
    congr 1
    refine (List.map_congr_left ?_).trans (List.map_id _)
    intro p hp
    have hcol := List.all_eq_true.mp h p hp
    obtain ⟨name, d⟩ := p
    cases d with
    | ints xs => rfl
    | strs xs =>
      show (name, ColData.strs (xs.map cleanCell)) = (name, ColData.strs xs)
      rw [strs_map_clean_id xs (by simpa using hcol)]

/-- A filter keeping every index of an index-annotated list is the identity. -/
theorem enumF_filter_keep_all {α : Type} (keep : Nat → Bool) :
    ∀ (xs : List α) (n : Nat), (∀ i, n ≤ i → i < n + xs.length → keep i = true) →
      ((enumF n xs).filter (fun p => keep p.1)).map (fun p => p.2) = xs := by
  intro xs
  induction xs with
  | nil => intro n _; rfl
  | cons x rest ih =>
    intro n h
    rw [enumF]
    rw [List.filter_cons_of_pos
      (by simpa using h n le_rfl (by simp only [List.length_cons]; omega))]
    rw [List.map_cons]
    congr 1
    exact ih (n + 1) (fun i h1 h2 =>
      h i (by omega) (by simp only [List.length_cons]; omega))

/-- Keeping every row of a column is the identity. -/
theorem filterRowsData_id (d : ColData) (keep : Nat → Bool)
    (hk : ∀ i, i < colLen d → keep i = true) : filterRowsData keep d = d := by
  cases d with
  | ints xs =>
    simp only [filterRowsData]
    congr 1
    exact enumF_filter_keep_all keep xs 0 (fun i _ h2 => hk i (by simpa using h2))
  | strs xs =>
    simp only [filterRowsData]
    congr 1
    exact enumF_filter_keep_all keep xs 0 (fun i _ h2 => hk i (by simpa using h2))

/-- Keeping every row of a rectangular table is the identity. -/
theorem filterRows_id (t : Table) (keep : Nat → Bool)
    (hrect : rectangular t = true)
    (hk : ∀ i, i < nrows t → keep i = true) : filterRows t keep = t := by
  cases t with
  | mk cols =>
    simp only [filterRows]
    congr 1
    refine (List.map_congr_left ?_).trans (List.map_id _)
    intro p hp
    have hcl : colLen p.2 = nrows ⟨cols⟩ := by
      have := List.all_eq_true.mp hrect p hp
      simpa using this
    show (p.1, filterRowsData keep p.2) = p
    rw [filterRowsData_id p.2 keep (fun i hi => hk i (hcl ▸ hi))]

/-- Artifact removal on a rectangular table without droppable rows is the
identity. -/
theorem artifacts_id (t : Table) (hrect : rectangular t = true)
    (h : noBadRows t = true) : fix_csv_artifacts t = t := by
  have hprops : ∀ i, i < nrows t →
      (rowAllNa t i = false ∧ sepRow (rowStrAt t i) = false) ∧
      headerRow (rowStrAt t i) = false := by
    intro i hi
    have := List.all_eq_true.mp h i (List.mem_range.mpr hi)
    simpa [Bool.and_eq_true, Bool.not_eq_true'] using this
  simp only [fix_csv_artifacts]
  have h1 : filterRows t (fun i => !rowAllNa t i) = t :=
    filterRows_id t _ hrect (fun i hi => by rw [(hprops i hi).1.1]; rfl)
  rw [h1]
  exact filterRows_id t _ hrect (fun i hi => by
    rw [(hprops i hi).1.2, (hprops i hi).2]
    rfl)

/-- The whole sanitiser is the identity on clean tables. -/
theorem sanitize_fixed (t : Table) (h : isCleanTable t = true) :
    sanitize_csv_data t = t := by
  have h4 : rectangular t = true ∧ intColCount t ≤ 1 ∧
      tableCellsClean t = true ∧ noBadRows t = true := by
    simp only [isCleanTable, Bool.and_eq_true, decide_eq_true_eq] at h
    exact ⟨h.1.1.1, h.1.1.2, h.1.2, h.2⟩
  show sanitizePipeline t = t
  unfold sanitizePipeline
  rw [fix_shifted_columns_id, merge_id t h4.2.1, normalize_id t h4.2.2.1,
    clean_id t h4.2.2.1, artifacts_id t h4.1 h4.2.2.2]

end FinTrack

namespace FinTrack

/-- Claim C9 (amended): a second sanitiser pass makes zero additional
modifications on every table whose first-pass output is already clean — at
most one numeric column (so the split-currency merge cannot re-fire), no
missing cells (which a second pass would turn into `"nan"` strings), every
cell a fixed point of the whitespace/quote cleanup, and no droppable rows.
In general the sanitiser is not idempotent (see the counterexample). -/
theorem c9_amended (t : Sanitizer.Table)
    (h : Sanitizer.isCleanTable (Sanitizer.sanitize_csv_data t) = true) :
    Sanitizer.sanitize_csv_data (Sanitizer.sanitize_csv_data t)
      = Sanitizer.sanitize_csv_data t ∧
    Sanitizer.validate_sanitization (Sanitizer.sanitize_csv_data t)
      (Sanitizer.sanitize_csv_data (Sanitizer.sanitize_csv_data t)) =
      ⟨0, 0, Sanitizer.nullCount (Sanitizer.sanitize_csv_data t),
        Sanitizer.nullCount (Sanitizer.sanitize_csv_data t)⟩ := by
  have hfix := sanitize_fixed _ h
  refine ⟨hfix, ?_⟩
  rw [hfix]
  simp [Sanitizer.validate_sanitization]

/-- Claim C9 witness: the amended theorem applied to a one-row clean table the
sanitiser leaves untouched. -/
theorem c9_amended_witness :
    Sanitizer.sanitize_csv_data (Sanitizer.sanitize_csv_data Examples.TW)
      = Sanitizer.sanitize_csv_data Examples.TW :=
  (c9_amended Examples.TW (by decide)).1

end FinTrack
